import Mathlib

/-!
# MX compiler middle-end: a shallow embedding

This file embeds the data model and the operations of the MX compiler's
semantic analyzer (`sema.rs`), compile-time environment (`comptime.rs`,
`symbol_table.rs`) and tree-walking interpreter (`interpreter.rs`) as
executable Lean definitions, and proves the specification's claims about
them.

Conventions used throughout:
* Rust `u32` index newtypes (`AstNodeRef`, `MxirNodeRef`, `SymbolTableRef`)
  are embedded as `Nat` indices into lists.  (`Vec::len() as u32` cannot
  wrap before memory is exhausted, so the truncation is not modelled.)
* Rust `Vec` stacks (`push`/`pop`/`last` at the end) are embedded as Lean
  lists with the *head* as the top of the stack.
* `HashMap<String, V>` is embedded as an association list with
  replace-on-insert semantics (`mapInsert`) and first-match get (`mapGet`).
* Rust panics (`expect`, `unwrap`, `assert!`, `panic!`, `todo!`) and
  exhausted recursion fuel are both embedded as `Option.none`.
-/

set_option maxHeartbeats 1000000
set_option maxRecDepth 100000

/-- `Point` from position.rs: a zero-based `(row, col)` position. -/
structure Point where
  row : Nat
  col : Nat
deriving DecidableEq, Repr

/-- `Range` from position.rs: a pair of positions.  (The Rust field `end`
is a Lean keyword; it is embedded as `stop`.) -/
structure Range where
  start : Point
  stop : Point
deriving DecidableEq, Repr

/-- `DiagnosticKind` from diag.rs.  The `InvalidFunctionCall` and
`IncorrectArgumentCount` variants are modelled from the spec: the diag.rs
in the tree omits them, but sema.rs reports `InvalidFunctionCall` and the
spec's diagnostic wire format lists both. -/
inductive DiagnosticKind where
  | MissingEntrypointFunction
  | MissingFunctionName
  | DuplicateDefinition
  | DuplicateParamName
  | InvalidFunctionCall
  | IncorrectArgumentCount
  | SymbolNotFound (name : String)
  | SyntaxError
  | SyntaxErrorExpectedToken (token : String)
deriving DecidableEq, Repr

/-- `Diagnostic` from diag.rs. -/
structure Diagnostic where
  path : String
  range : Range
  kind : DiagnosticKind
deriving DecidableEq, Repr

/-- `AstNodeRef`: dense index into the AST pool (Rust: `u32` newtype). -/
abbrev AstNodeRef := Nat

/-- `MxirNodeRef`: dense index into the MXIR pool (Rust: `u32` newtype). -/
abbrev MxirNodeRef := Nat

/-- First-match lookup in an association list; embeds `HashMap::get`. -/
def mapGet {V : Type} (k : String) : List (String × V) → Option V
  | [] => none
  | p :: rest => if p.1 = k then some p.2 else mapGet k rest

/-- Replace-or-add insertion; embeds `HashMap::insert` (the new value wins). -/
def mapInsert {V : Type} (m : List (String × V)) (k : String) (v : V) :
    List (String × V) :=
  (k, v) :: m.filter (fun p => p.1 ≠ k)

/-- `AstNode` from ast.rs: kind tag, range, text slice, field map, children. -/
structure AstNode where
  self_ref : AstNodeRef
  kind : String
  range : Range
  text : String
  named_children : List (String × AstNodeRef)
  children : List AstNodeRef
deriving DecidableEq, Repr

/-- `Ast` from ast.rs: the flat node pool, plus `ParsedSourceFile::node`
(`ast.0.get(i).cloned()`) as `List.get?`. -/
abbrev Ast := List AstNode

/-- Decimal digits accumulator for `parseI128`; `none` on a non-digit or
on the empty digit string. -/
def decDigitsAcc : List Char → Nat → Option Nat
  | [], acc => some acc
  | c :: rest, acc =>
    if c.isDigit then decDigitsAcc rest (acc * 10 + (c.toNat - 48)) else none

/-- Models Rust `str::parse::<i128>()`: optional sign, one or more decimal
digits, nothing else, with the i128 range check. -/
def parseI128 (str : String) : Option Int :=
  match str.toList with
  | [] => none
  | '-' :: rest =>
    if rest.isEmpty then none else
      (decDigitsAcc rest 0).bind fun n =>
        if (n : Int) ≤ 2 ^ 127 then some (-(n : Int)) else none
  | '+' :: rest =>
    if rest.isEmpty then none else
      (decDigitsAcc rest 0).bind fun n =>
        if (n : Int) < 2 ^ 127 then some (n : Int) else none
  | cs =>
    (decDigitsAcc cs 0).bind fun n =>
      if (n : Int) < 2 ^ 127 then some (n : Int) else none

/-! ## Symbol table (symbol_table.rs)

`SymbolTableSet` owns every table ever pushed (`tables`) while the active
scope chain is a separate stack of indices (`stack`).  The Rust `Vec` stack
is embedded head-first: `stack.head?` is `stack.last()`. -/

/-- `SymbolTable` from symbol_table.rs. -/
structure SymbolTable (V D : Type) where
  data : D
  parent : Option Nat
  members : List (String × V)

/-- `SymbolTableSet` from symbol_table.rs. -/
structure SymbolTableSet (V D : Type) where
  tables : List (SymbolTable V D)
  stack : List Nat

namespace SymbolTableSet

variable {V D : Type}

/-- `SymbolTableSet::new`. -/
def new : SymbolTableSet V D := { tables := [], stack := [] }

/-- `SymbolTableSet::current_table_ref`: top of the active stack. -/
def current_table_ref (s : SymbolTableSet V D) : Option Nat :=
  s.stack.head?

/-- `SymbolTableSet::current_table`. -/
def current_table (s : SymbolTableSet V D) : Option (SymbolTable V D) :=
  s.current_table_ref.bind fun r => s.tables[r]?

/-- `SymbolTableSet::push_table`: allocate a new table whose parent is the
current top, push its index onto the stack, and return the index. -/
def push_table (s : SymbolTableSet V D) (table_data : D) :
    SymbolTableSet V D × Nat :=
  let parent_ref := s.current_table_ref
  let table_ref := s.tables.length
  ({ tables := s.tables ++ [⟨table_data, parent_ref, []⟩],
     stack := table_ref :: s.stack }, table_ref)

/-- `SymbolTableSet::pop_table`: pop the active stack only; the table
itself stays in `tables`. -/
def pop_table (s : SymbolTableSet V D) : SymbolTableSet V D × Option Nat :=
  ({ s with stack := s.stack.tail }, s.stack.head?)

/-- `SymbolTableSet::insert`: insert into the current (top) table; a no-op
when the stack is empty or the top index is dangling. -/
def insert (s : SymbolTableSet V D) (name : String) (val : V) :
    SymbolTableSet V D :=
  match s.stack.head? with
  | none => s
  | some r =>
    match s.tables[r]? with
    | none => s
    | some t =>
      { s with tables := s.tables.set r { t with members := mapInsert t.members name val } }

/-- `SymbolTableSet::get`: lookup in the top table only. -/
def get (s : SymbolTableSet V D) (name : String) : Option V :=
  s.current_table.bind fun t => mapGet name t.members

/-- The parent-chain walk of `SymbolTableSet::lookup`.  The Rust loop
terminates because a table's parent index is always smaller than its own;
the embedding makes this explicit with fuel (the caller passes
`tables.length + 1`, enough for any parent-decreasing chain).  The Rust
`expect("Table not found")` panic is embedded as `none`. -/
def lookupAux (tables : List (SymbolTable V D)) (name : String) :
    Nat → Nat → Option V
  | _, 0 => none
  | table_ref, fuel + 1 =>
    match tables[table_ref]? with
    | none => none
    | some t =>
      match mapGet name t.members with
      | some v => some v
      | none =>
        match t.parent with
        | some parent_ref => lookupAux tables name parent_ref fuel
        | none => none

/-- `SymbolTableSet::lookup`: search the current table, then its parents. -/
def lookup (s : SymbolTableSet V D) (name : String) : Option V :=
  match s.current_table_ref with
  | none => none
  | some r => lookupAux s.tables name r (s.tables.length + 1)

end SymbolTableSet

/-! ## C5 and C7 apparatus -/

/-- One client-visible operation on a `SymbolTableSet`, as enumerated by
the claim: `push`/`insert`/`pop`. -/
inductive TableOp (V D : Type) where
  | push (data : D)
  | insert (name : String) (val : V)
  | pop

/-- Run a sequence of operations from the empty set. -/
def runOps {V D : Type} (ops : List (TableOp V D)) : SymbolTableSet V D :=
  ops.foldl
    (fun s op =>
      match op with
      | .push d => (s.push_table d).1
      | .insert name v => s.insert name v
      | .pop => (s.pop_table).1)
    SymbolTableSet.new

/-- Modelled from the spec's words for C5 ("lookup resolves only through
the tables on the active chain: top table, then parents"): resolve a name
by walking the *stack* top-down, ignoring parent links entirely.  C5 proves
the code's parent-chain `lookup` equal to this. -/
def stackLookup {V D : Type} (s : SymbolTableSet V D) (name : String) :
    Option V :=
  s.stack.findSome? fun r => s.tables[r]?.bind fun t => mapGet name t.members

/-- The structural invariant of every reachable `SymbolTableSet`: the stack
never outgrows the table pool, and each stack entry indexes a real table
whose parent link is exactly the next entry down the stack. -/
def ChainInv {V D : Type} (s : SymbolTableSet V D) : Prop :=
  s.stack.length ≤ s.tables.length ∧
    ∀ i r, s.stack[i]? = some r →
      ∃ t, s.tables[r]? = some t ∧ t.parent = s.stack[i + 1]?

/-! ## Compile-time value domain (comptime.rs)

`ComptimeValue` is recursive through `FnDecl`/`FnProto`/`VarDecl`; the Rust
`Box` indirection disappears in the embedding.  The payload structs
(`ParamDecl`, `FnDecl`, `FnProto`, `VarDecl`) are embedded as structures
parametric in the value type so that the nested inductive elaborates. -/

/-- `ParamDecl` from comptime.rs (parametric shape). -/
structure ParamDeclG (T : Type) where
  name : String
  ty : T

/-- `FnDecl` from comptime.rs (parametric shape). -/
structure FnDeclG (T : Type) where
  name : String
  comptime_params : List (ParamDeclG T)
  params : List (ParamDeclG T)
  return_type : T
  body_ref : AstNodeRef

/-- `FnProto` from comptime.rs (parametric shape). -/
structure FnProtoG (T : Type) where
  comptime_params : List (ParamDeclG T)
  params : List (ParamDeclG T)
  return_type : T

/-- `VarDecl` from comptime.rs (parametric shape).  `value_ref` is an
`Option AstNodeRef`: the comptime.rs in the tree declares a bare
`AstNodeRef`, but sema.rs passes the optional `value` field through
`declare_var`, so the compiling version must be optional. -/
structure VarDeclG (T : Type) where
  name : String
  ty : Option T
  value_ref : Option AstNodeRef

/-- `ComptimeValue` from comptime.rs.  The Rust variant `Type` is a Lean
keyword and is embedded as `TypeMarker`. -/
inductive ComptimeValue where
  | Undefined
  | FnDecl (d : FnDeclG ComptimeValue)
  | FnProto (p : FnProtoG ComptimeValue)
  | VarDecl (v : VarDeclG ComptimeValue)
  | ComptimeInt (v : Int)
  | ComptimeFloat (v : Float)
  | ComptimeString (v : String)
  | ComptimeBool (v : Bool)
  | TypeMarker

/-- `ParamDecl` instantiated at `ComptimeValue`. -/
abbrev ParamDecl := ParamDeclG ComptimeValue

/-- `ComptimeBinding` from comptime.rs. -/
structure ComptimeBinding where
  node_ref : AstNodeRef
  ty : Option ComptimeValue
  value : ComptimeValue

/-- `ComptimeEnv` from comptime.rs: a newtype over the symbol-table set;
the embedding uses the set directly. -/
abbrev ComptimeEnv := SymbolTableSet ComptimeBinding Range

/-- `ComptimeEnv::new`. -/
def ComptimeEnv.new : ComptimeEnv := SymbolTableSet.new

/-- `ComptimeEnv::push_scope`. -/
def ComptimeEnv.push_scope (e : ComptimeEnv) (range : Range) : ComptimeEnv :=
  (SymbolTableSet.push_table e range).1

/-- `ComptimeEnv::pop_scope`. -/
def ComptimeEnv.pop_scope (e : ComptimeEnv) : ComptimeEnv :=
  (SymbolTableSet.pop_table e).1

/-- `ComptimeEnv::get`. -/
def ComptimeEnv.get (e : ComptimeEnv) (name : String) : Option ComptimeBinding :=
  SymbolTableSet.get e name

/-- `ComptimeEnv::lookup`. -/
def ComptimeEnv.lookup (e : ComptimeEnv) (name : String) : Option ComptimeBinding :=
  SymbolTableSet.lookup e name

/-- `ComptimeEnv::declare_fn`: error on a duplicate in the top table,
otherwise insert an `FnDecl` binding.  Rust returns `Result<(), &str>`;
the embedding returns the updated environment in the `ok` case. -/
def ComptimeEnv.declare_fn (e : ComptimeEnv) (node_ref : AstNodeRef)
    (name : String) (comptime_params params : List ParamDecl)
    (return_type : ComptimeValue) (body_ref : AstNodeRef) :
    Except String ComptimeEnv :=
  if (ComptimeEnv.get e name).isSome then
    .error ("Duplicate declaration")
  else
    .ok (SymbolTableSet.insert e name
      { node_ref := node_ref, ty := none,
        value := ComptimeValue.FnDecl
          { name := name, comptime_params := comptime_params,
            params := params, return_type := return_type,
            body_ref := body_ref } })

/-- `ComptimeEnv::declare_const`. -/
def ComptimeEnv.declare_const (e : ComptimeEnv) (node_ref : AstNodeRef)
    (name : String) (ty : Option ComptimeValue) (value : ComptimeValue) :
    Except String ComptimeEnv :=
  if (ComptimeEnv.get e name).isSome then
    .error ("Duplicate declaration")
  else
    .ok (SymbolTableSet.insert e name
      { node_ref := node_ref, ty := ty, value := value })

/-- `ComptimeEnv::declare_var`. -/
def ComptimeEnv.declare_var (e : ComptimeEnv) (node_ref : AstNodeRef)
    (name : String) (ty : Option ComptimeValue)
    (value_ref : Option AstNodeRef) : Except String ComptimeEnv :=
  if (ComptimeEnv.get e name).isSome then
    .error ("Duplicate declaration")
  else
    .ok (SymbolTableSet.insert e name
      { node_ref := node_ref, ty := ty,
        value := ComptimeValue.VarDecl
          { name := name, ty := ty, value_ref := value_ref } })

/-! ## MXIR (mxir.rs) -/

/-- `MxirBlock` from mxir.rs (tuple struct over a ref vector). -/
abbrev MxirBlock := List MxirNodeRef

/-- `MxirReturn` from mxir.rs. -/
abbrev MxirReturn := Option MxirNodeRef

/-- `MxirLoop` from mxir.rs. -/
abbrev MxirLoop := Option MxirNodeRef

/-- `MxirBuiltinFnDecl` from mxir.rs.  The `fn_` field is a nullary
side-effecting thunk; its effect is not observable in the embedded state,
so only the name is carried. -/
structure MxirBuiltinFnDecl where
  name : String

/-- `MxirFnDecl` from mxir.rs. -/
structure MxirFnDecl where
  name : String
  body : MxirNodeRef

/-- `MxirVarDecl` from mxir.rs. -/
structure MxirVarDecl where
  name : String
  ty : Option ComptimeValue
  value : Option MxirNodeRef

/-- `MxirIntLiteral` from mxir.rs (`value: i128`). -/
structure MxirIntLiteral where
  value : Int

/-- `MxirFloatLiteral` from mxir.rs. -/
structure MxirFloatLiteral where
  value : Float

/-- `MxirStringLiteral` from mxir.rs. -/
structure MxirStringLiteral where
  value : String

/-- `MxirBoolLiteral` from mxir.rs. -/
structure MxirBoolLiteral where
  value : Bool

/-- `MxirVarExpr` from mxir.rs. -/
structure MxirVarExpr where
  name : String

/-- `MxirCallExpr` from mxir.rs. -/
structure MxirCallExpr where
  fn_decl_ref : MxirNodeRef
  args : List MxirNodeRef

/-- `MxirIf` from mxir.rs. -/
structure MxirIf where
  condition : MxirNodeRef
  then_branch : MxirNodeRef
  else_branch : Option MxirNodeRef

/-- `MxirNodeData` from mxir.rs. -/
inductive MxirNodeData where
  | SourceFile (b : MxirBlock)
  | Nop (msg : String)
  | BuiltinFnDecl (d : MxirBuiltinFnDecl)
  | FnDecl (d : MxirFnDecl)
  | VarDecl (d : MxirVarDecl)
  | ExprStmt (child : MxirNodeRef)
  | Return (r : MxirReturn)
  | Loop (l : MxirLoop)
  | If (i : MxirIf)
  | Break
  | Continue
  | Assign (lhs rhs : MxirNodeRef)
  | Block (b : MxirBlock)
  | IntLiteral (l : MxirIntLiteral)
  | FloatLiteral (l : MxirFloatLiteral)
  | StringLiteral (l : MxirStringLiteral)
  | BoolLiteral (l : MxirBoolLiteral)
  | VarExpr (e : MxirVarExpr)
  | CallExpr (c : MxirCallExpr)

/-- `MxirNode` from mxir.rs. -/
structure MxirNode where
  self_ref : MxirNodeRef
  ast_node : AstNodeRef
  data : MxirNodeData

/-- `Mxir` from mxir.rs: the flat node vector. -/
abbrev Mxir := List MxirNode

/-! ## Sema (sema.rs)

`Sema` holds a reference to the parsed file plus three growing pieces of
state.  The embedding splits them: `SemaCtx` is the read-only part
(`file`, exposing `path()` and `node()`), `SemaState` the mutable part.
Every analysis function takes explicit fuel (recursion in sema.rs is on
arbitrary AST indices, which nothing prevents from being cyclic) and
returns `none` on a Rust panic or on fuel exhaustion. -/

/-- The read-only part of `Sema`: the parsed source file. -/
structure SemaCtx where
  path : String
  ast : Ast

/-- The mutable part of `Sema`: scope chain, MXIR arena, diagnostics. -/
structure SemaState where
  env : ComptimeEnv
  mxir : Mxir
  diagnostics : List Diagnostic

namespace Sema

/-- `Sema::node` (`self.file.node(node_ref).expect("Node not found")`);
the panic is the `none` case at the call sites. -/
def node (ctx : SemaCtx) (node_ref : AstNodeRef) : Option AstNode :=
  ctx.ast[node_ref]?

/-- `Sema::node_range`. -/
def node_range (ctx : SemaCtx) (node_ref : AstNodeRef) : Option Range :=
  (node ctx node_ref).map fun n => n.range

/-- `Sema::emit`: append a node whose `self_ref` is the current length. -/
def emit (s : SemaState) (ast_node : AstNodeRef) (data : MxirNodeData) :
    MxirNodeRef × SemaState :=
  let self_ref := s.mxir.length
  (self_ref,
    { s with mxir := s.mxir ++ [{ self_ref := self_ref, ast_node := ast_node, data := data }] })

/-- `Sema::emit_nop` (same append with a `Nop` payload). -/
def emit_nop (s : SemaState) (ast_node : AstNodeRef) (msg : String) :
    MxirNodeRef × SemaState :=
  emit s ast_node (MxirNodeData.Nop msg)

/-- `Sema::report`: append a diagnostic at the node's range. -/
def report (ctx : SemaCtx) (s : SemaState) (node_ref : AstNodeRef)
    (diag_kind : DiagnosticKind) : Option SemaState :=
  (node ctx node_ref).map fun n =>
    { s with diagnostics :=
        s.diagnostics ++ [{ path := ctx.path, range := n.range, kind := diag_kind }] }

/-- The fresh state `Sema::new` starts from. -/
def initState : SemaState :=
  { env := ComptimeEnv.new, mxir := [], diagnostics := [] }

/-- `Sema::analyze_comptime_value`: project a compile-time value onto MXIR
node data, when it has a runtime shape. -/
def analyze_comptime_value (value : ComptimeValue) : Option MxirNodeData :=
  match value with
  | ComptimeValue.VarDecl var_decl =>
    some (MxirNodeData.VarExpr { name := var_decl.name })
  | ComptimeValue.ComptimeInt comptime_int =>
    some (MxirNodeData.IntLiteral { value := comptime_int })
  | ComptimeValue.ComptimeBool comptime_bool =>
    some (MxirNodeData.BoolLiteral { value := comptime_bool })
  | ComptimeValue.ComptimeString comptime_string =>
    some (MxirNodeData.StringLiteral { value := comptime_string })
  | _ => none

/-! ### Compile-time evaluation cluster

`comptime_eval_comptime_expr`, `comptime_eval_fn_proto` and the two
parameter walkers are mutually recursive; each takes fuel and hands
`fuel` (one less than its own) to everything it calls. -/

mutual

/-- `Sema::comptime_eval_comptime_expr` (sema.rs lines 357-393).  The
`assert!(node.kind == "comptime_expr")` and the catch-all
`panic!("Unsupported comptime expression")` are `none`. -/
def comptime_eval_comptime_expr (ctx : SemaCtx) :
    Nat → AstNodeRef → SemaState → Option (ComptimeValue × SemaState)
  | 0, _, _ => none
  | fuel + 1, node_ref, s =>
    match node ctx node_ref with
    | none => none
    | some n =>
      if n.kind = ("comptime_expr") then
        match mapGet ("expr") n.named_children with
        | none => none
        | some expr_node_ref =>
          match node ctx expr_node_ref with
          | none => none
          | some expr_node =>
            match expr_node.kind with
            | "int_literal" =>
              -- Rust parses `node.text` (the wrapper's text), not the
              -- inner literal's text.
              match parseI128 n.text with
              | none => none
              | some value => some (ComptimeValue.ComptimeInt value, s)
            | "string_literal" =>
              -- `String::from_str` is infallible.
              some (ComptimeValue.ComptimeString n.text, s)
            | "variable_expr" =>
              let name := expr_node.text
              match ComptimeEnv.lookup s.env name with
              | some binding => some (binding.value, s)
              | none =>
                match report ctx s expr_node_ref (DiagnosticKind.SymbolNotFound name) with
                | none => none
                | some s => some (ComptimeValue.Undefined, s)
            | "fn_proto" => comptime_eval_fn_proto ctx fuel expr_node_ref s
            | _ => none
      else none
termination_by structural fuel a0 a1 => fuel

/-- `Sema::comptime_eval_fn_proto` (sema.rs lines 395-424). -/
def comptime_eval_fn_proto (ctx : SemaCtx) :
    Nat → AstNodeRef → SemaState → Option (ComptimeValue × SemaState)
  | 0, _, _ => none
  | fuel + 1, expr_node_ref, s =>
    match node ctx expr_node_ref with
    | none => none
    | some expr_node =>
      let s := { s with env := ComptimeEnv.push_scope s.env expr_node.range }
      match bind_comptime_params ctx fuel expr_node_ref ("comptime_params") s with
      | none => none
      | some (comptime_params, s) =>
        match extract_params ctx fuel expr_node_ref ("params") s with
        | none => none
        | some (params, s) =>
          match mapGet ("return_type") expr_node.named_children with
          | none => none
          | some return_type_ref =>
            match comptime_eval_comptime_expr ctx fuel return_type_ref s with
            | none => none
            | some (return_type, s) =>
              let s := { s with env := ComptimeEnv.pop_scope s.env }
              some (ComptimeValue.FnProto
                { comptime_params := comptime_params, params := params,
                  return_type := return_type }, s)
termination_by structural fuel a0 a1 => fuel

/-- `Sema::bind_comptime_params` (sema.rs lines 427-485): walk the
parameter list under `param_list_field`, declaring each parameter as a
const in the current scope; an absent field yields no parameters. -/
def bind_comptime_params (ctx : SemaCtx) :
    Nat → AstNodeRef → String → SemaState → Option (List ParamDecl × SemaState)
  | 0, _, _, _ => none
  | fuel + 1, proto_ref, param_list_field, s =>
    match node ctx proto_ref with
    | none => none
    | some proto_node =>
      match mapGet param_list_field proto_node.named_children with
      | none => some ([], s)
      | some param_list_node_ref =>
        match node ctx param_list_node_ref with
        | none => none
        | some param_list_node =>
          bind_comptime_params_loop ctx fuel param_list_node.children [] [] s
termination_by structural fuel a0 a1 a2 => fuel

/-- The body of `bind_comptime_params`'s `for` loop, one parameter node at
a time; `param_names` is the Rust `HashSet` of names already seen and
`acc` the collected declarations. -/
def bind_comptime_params_loop (ctx : SemaCtx) :
    Nat → List AstNodeRef → List String → List ParamDecl → SemaState →
      Option (List ParamDecl × SemaState)
  | 0, _, _, _, _ => none
  | fuel + 1, params, param_names, acc, s =>
    match params with
    | [] => some (acc, s)
    | param_node_ref :: rest =>
    match node ctx param_node_ref with
    | none => none
    | some param_node =>
      match mapGet ("name") param_node.named_children with
      | none => none
      | some param_name_ref =>
        match node ctx param_name_ref with
        | none => none
        | some param_name_node =>
          let param_name := param_name_node.text
          let dup := param_names.contains param_name
          let step :=
            if dup then
              (report ctx s param_name_ref DiagnosticKind.DuplicateParamName).map
                fun s => (param_names, s)
            else some (param_name :: param_names, s)
          match step with
          | none => none
          | some (param_names, s) =>
            match mapGet ("type") param_node.named_children with
            | none => none
            | some param_type_ref =>
              match comptime_eval_comptime_expr ctx fuel param_type_ref s with
              | none => none
              | some (param_ty, s) =>
                -- placeholder value: the parameter's type, cloned
                let param_value := param_ty
                -- `let _ = declare_const(..)`: the `Err` is discarded
                let s :=
                  match ComptimeEnv.declare_const s.env param_node_ref param_name
                      (some param_ty) param_value with
                  | Except.ok env => { s with env := env }
                  | Except.error _ => s
                bind_comptime_params_loop ctx fuel rest param_names
                  (acc ++ [{ name := param_name, ty := param_ty }]) s
termination_by structural fuel a0 a1 a2 a3 => fuel

/-- `Sema::extract_params` (sema.rs lines 487-528): like
`bind_comptime_params` but without declaring anything. -/
def extract_params (ctx : SemaCtx) :
    Nat → AstNodeRef → String → SemaState → Option (List ParamDecl × SemaState)
  | 0, _, _, _ => none
  | fuel + 1, proto_ref, param_list_field, s =>
    match node ctx proto_ref with
    | none => none
    | some proto_node =>
      match mapGet param_list_field proto_node.named_children with
      | none => some ([], s)
      | some param_list_node_ref =>
        match node ctx param_list_node_ref with
        | none => none
        | some param_list_node =>
          extract_params_loop ctx fuel param_list_node.children [] [] s
termination_by structural fuel a0 a1 a2 => fuel

/-- The body of `extract_params`'s `for` loop. -/
def extract_params_loop (ctx : SemaCtx) :
    Nat → List AstNodeRef → List String → List ParamDecl → SemaState →
      Option (List ParamDecl × SemaState)
  | 0, _, _, _, _ => none
  | fuel + 1, params, param_names, acc, s =>
    match params with
    | [] => some (acc, s)
    | param_node_ref :: rest =>
    match node ctx param_node_ref with
    | none => none
    | some param_node =>
      match mapGet ("name") param_node.named_children with
      | none => none
      | some param_name_ref =>
        match node ctx param_name_ref with
        | none => none
        | some param_name_node =>
          let param_name := param_name_node.text
          let dup := param_names.contains param_name
          let step :=
            if dup then
              (report ctx s param_name_ref DiagnosticKind.DuplicateParamName).map
                fun s => (param_names, s)
            else some (param_name :: param_names, s)
          match step with
          | none => none
          | some (param_names, s) =>
            match mapGet ("type") param_node.named_children with
            | none => none
            | some param_type_ref =>
              match comptime_eval_comptime_expr ctx fuel param_type_ref s with
              | none => none
              | some (param_ty, s) =>
                extract_params_loop ctx fuel rest param_names
                  (acc ++ [{ name := param_name, ty := param_ty }]) s
termination_by structural fuel a0 a1 a2 a3 => fuel
end

/-! ### Expression leaves (non-recursive lowering functions) -/

/-- `Sema::analyze_variable_expr` (sema.rs lines 290-303): look the name
up along the scope chain; a bound compile-time value with a runtime shape
becomes the corresponding node, anything else becomes a `Nop`.  Note that
the unbound case emits `Nop("undefined variable")` and reports nothing. -/
def analyze_variable_expr (ctx : SemaCtx) (node_ref : AstNodeRef)
    (s : SemaState) : Option (MxirNodeRef × SemaState) :=
  match node ctx node_ref with
  | none => none
  | some n =>
    let name := n.text
    match ComptimeEnv.lookup s.env name with
    | some binding =>
      match analyze_comptime_value binding.value with
      | some mxir_node_data => some (emit s node_ref mxir_node_data)
      | none => some (emit_nop s node_ref ("unhandled comptime value"))
    | none => some (emit_nop s node_ref ("undefined variable"))

/-- `Sema::analyze_int_literal`: parse the node text (panic on failure,
hence `none`). -/
def analyze_int_literal (ctx : SemaCtx) (node_ref : AstNodeRef)
    (s : SemaState) : Option (MxirNodeRef × SemaState) :=
  match node ctx node_ref with
  | none => none
  | some n =>
    match parseI128 n.text with
    | none => none
    | some value => some (emit s node_ref (MxirNodeData.IntLiteral { value := value }))

/-- `Sema::analyze_string_literal`. -/
def analyze_string_literal (ctx : SemaCtx) (node_ref : AstNodeRef)
    (s : SemaState) : Option (MxirNodeRef × SemaState) :=
  match node ctx node_ref with
  | none => none
  | some n =>
    some (emit s node_ref (MxirNodeData.StringLiteral { value := n.text }))

/-! ### The recursive lowering cluster -/

mutual

/-- `Sema::analyze_node` (sema.rs lines 84-98): statement-level dispatch
on the AST node's kind; unknown kinds become `Nop(kind)`. -/
def analyze_node (ctx : SemaCtx) :
    Nat → AstNodeRef → SemaState → Option (MxirNodeRef × SemaState)
  | 0, _, _ => none
  | fuel + 1, node_ref, s =>
    match node ctx node_ref with
    | none => none
    | some n =>
      match n.kind with
      | "fn_decl" => analyze_fn_decl ctx fuel node_ref s
      | "const_decl" => analyze_const_decl ctx fuel node_ref s
      | "var_decl" => analyze_var_decl ctx fuel node_ref s
      | "block" => analyze_block ctx fuel node_ref s
      | "expr_stmt" => analyze_expr_stmt ctx fuel node_ref s
      | "return_stmt" => analyze_return_stmt ctx fuel node_ref s
      | _ => some (emit_nop s node_ref n.kind)
termination_by structural fuel a0 a1 => fuel

/-- `Sema::analyze_fn_decl` (sema.rs lines 100-163): read the prototype,
bind comptime parameters in a fresh scope, evaluate the return type, pop
the scope, then register the function (body lowered lazily at call sites)
and emit `Nop("fn_decl")`. -/
def analyze_fn_decl (ctx : SemaCtx) :
    Nat → AstNodeRef → SemaState → Option (MxirNodeRef × SemaState)
  | 0, _, _ => none
  | fuel + 1, node_ref, s =>
    match node ctx node_ref with
    | none => none
    | some n =>
      match mapGet ("proto") n.named_children with
      | none => none
      | some proto_ref =>
        match node ctx proto_ref with
        | none => none
        | some proto_node =>
          let nameStep : Option (String × SemaState) :=
            match mapGet ("name") proto_node.named_children with
            | some name_ref =>
              match node ctx name_ref with
              | none => none
              | some name_node => some (name_node.text, s)
            | none =>
              (report ctx s node_ref DiagnosticKind.MissingFunctionName).map
                fun s => ("<anonymous>", s)
          match nameStep with
          | none => none
          | some (name, s) =>
            let s := { s with env := ComptimeEnv.push_scope s.env proto_node.range }
            match bind_comptime_params ctx fuel proto_ref ("comptime_params") s with
            | none => none
            | some (comptime_params, s) =>
              match extract_params ctx fuel proto_ref ("params") s with
              | none => none
              | some (params, s) =>
                match mapGet ("return_type") proto_node.named_children with
                | none => none
                | some return_type_ref =>
                  match comptime_eval_comptime_expr ctx fuel return_type_ref s with
                  | none => none
                  | some (return_type, s) =>
                    match mapGet ("body") n.named_children with
                    | none => none
                    | some body_ref =>
                      let s := { s with env := ComptimeEnv.pop_scope s.env }
                      let s :=
                        if name ≠ ("<anonymous>") then
                          match ComptimeEnv.declare_fn s.env node_ref name
                              comptime_params params return_type body_ref with
                          | Except.ok env => some { s with env := env }
                          | Except.error _ =>
                            report ctx s node_ref DiagnosticKind.DuplicateDefinition
                        else some s
                      match s with
                      | none => none
                      | some s => some (emit_nop s node_ref ("fn_decl"))

/-- `Sema::analyze_const_decl` (sema.rs lines 165-195). -/
def analyze_const_decl (ctx : SemaCtx) :
    Nat → AstNodeRef → SemaState → Option (MxirNodeRef × SemaState)
  | 0, _, _ => none
  | fuel + 1, node_ref, s =>
    match node ctx node_ref with
    | none => none
    | some n =>
      match mapGet ("name") n.named_children with
      | none => none
      | some name_ref =>
        match node ctx name_ref with
        | none => none
        | some name_node =>
          let name := name_node.text
          let tyStep : Option (Option ComptimeValue × SemaState) :=
            match mapGet ("type") n.named_children with
            | some ty_ref =>
              (comptime_eval_comptime_expr ctx fuel ty_ref s).map
                fun (ty, s) => (some ty, s)
            | none => some (none, s)
          match tyStep with
          | none => none
          | some (ty, s) =>
            match mapGet ("value") n.named_children with
            | none => none
            | some value_ref =>
              match comptime_eval_comptime_expr ctx fuel value_ref s with
              | none => none
              | some (value, s) =>
                let s :=
                  match ComptimeEnv.declare_const s.env node_ref name ty value with
                  | Except.ok env => some { s with env := env }
                  | Except.error _ =>
                    report ctx s node_ref DiagnosticKind.DuplicateDefinition
                match s with
                | none => none
                | some s => some (emit_nop s node_ref n.kind)

/-- `Sema::analyze_var_decl` (sema.rs lines 197-237): lower the optional
initializer, declare the variable (a duplicate reports and emits a `Nop`),
then emit `MxirVarDecl`. -/
def analyze_var_decl (ctx : SemaCtx) :
    Nat → AstNodeRef → SemaState → Option (MxirNodeRef × SemaState)
  | 0, _, _ => none
  | fuel + 1, node_ref, s =>
    match node ctx node_ref with
    | none => none
    | some n =>
      match mapGet ("name") n.named_children with
      | none => none
      | some name_ref =>
        match node ctx name_ref with
        | none => none
        | some name_node =>
          let name := name_node.text
          let tyStep : Option (Option ComptimeValue × SemaState) :=
            match mapGet ("type") n.named_children with
            | some ty_ref =>
              (comptime_eval_comptime_expr ctx fuel ty_ref s).map
                fun (ty, s) => (some ty, s)
            | none => some (none, s)
          match tyStep with
          | none => none
          | some (ty, s) =>
            let value_ref := mapGet ("value") n.named_children
            let valueStep : Option (Option MxirNodeRef × SemaState) :=
              match value_ref with
              | some value_ref =>
                (analyze_expr ctx fuel value_ref s).map
                  fun (r, s) => (some r, s)
              | none => some (none, s)
            match valueStep with
            | none => none
            | some (mxir_value_ref, s) =>
              match ComptimeEnv.declare_var s.env node_ref name ty value_ref with
              | Except.error _ =>
                match report ctx s node_ref DiagnosticKind.DuplicateDefinition with
                | none => none
                | some s => some (emit_nop s node_ref ("duplicate definition"))
              | Except.ok env =>
                let s := { s with env := env }
                some (emit s node_ref (MxirNodeData.VarDecl
                  { name := name, ty := ty, value := mxir_value_ref }))
termination_by structural fuel a0 a1 => fuel

/-- `Sema::analyze_block` (sema.rs lines 239-249). -/
def analyze_block (ctx : SemaCtx) :
    Nat → AstNodeRef → SemaState → Option (MxirNodeRef × SemaState)
  | 0, _, _ => none
  | fuel + 1, node_ref, s =>
    match node ctx node_ref with
    | none => none
    | some n =>
      let s := { s with env := ComptimeEnv.push_scope s.env n.range }
      match analyze_body ctx fuel node_ref s with
      | none => none
      | some (stmts, s) =>
        let s := { s with env := ComptimeEnv.pop_scope s.env }
        some (emit s node_ref (MxirNodeData.Block stmts))
termination_by structural fuel a0 a1 => fuel

/-- `Sema::analyze_body` (sema.rs lines 251-260): lower every child in
order. -/
def analyze_body (ctx : SemaCtx) :
    Nat → AstNodeRef → SemaState → Option (List MxirNodeRef × SemaState)
  | 0, _, _ => none
  | fuel + 1, node_ref, s =>
    match node ctx node_ref with
    | none => none
    | some n => analyze_body_loop ctx fuel n.children s
termination_by structural fuel a0 a1 => fuel

/-- The body of `analyze_body`'s `for` loop. -/
def analyze_body_loop (ctx : SemaCtx) :
    Nat → List AstNodeRef → SemaState → Option (List MxirNodeRef × SemaState)
  | 0, _, _ => none
  | fuel + 1, children, s =>
    match children with
    | [] => some ([], s)
    | child_ref :: rest =>
    match analyze_node ctx fuel child_ref s with
    | none => none
    | some (r, s) =>
      match analyze_body_loop ctx fuel rest s with
      | none => none
      | some (rs, s) => some (r :: rs, s)
termination_by structural fuel a0 a1 => fuel

/-- `Sema::analyze_expr_stmt` (sema.rs lines 262-266). -/
def analyze_expr_stmt (ctx : SemaCtx) :
    Nat → AstNodeRef → SemaState → Option (MxirNodeRef × SemaState)
  | 0, _, _ => none
  | fuel + 1, node_ref, s =>
    match node ctx node_ref with
    | none => none
    | some n =>
      match mapGet ("expr") n.named_children with
      | none => none
      | some expr_ref =>
        match analyze_expr ctx fuel expr_ref s with
        | none => none
        | some (expr, s) =>
          some (emit s node_ref (MxirNodeData.ExprStmt expr))
termination_by structural fuel a0 a1 => fuel

/-- `Sema::analyze_return_stmt` (sema.rs lines 268-277). -/
def analyze_return_stmt (ctx : SemaCtx) :
    Nat → AstNodeRef → SemaState → Option (MxirNodeRef × SemaState)
  | 0, _, _ => none
  | fuel + 1, node_ref, s =>
    match node ctx node_ref with
    | none => none
    | some n =>
      let retStep : Option (Option MxirNodeRef × SemaState) :=
        match mapGet ("expr") n.named_children with
        | some expr_ref =>
          (analyze_expr ctx fuel expr_ref s).map
            fun (r, s) => (some r, s)
        | none => some (none, s)
      match retStep with
      | none => none
      | some (mxir_return, s) =>
        some (emit s node_ref (MxirNodeData.Return mxir_return))
termination_by structural fuel a0 a1 => fuel

/-- `Sema::analyze_expr` (sema.rs lines 279-288): expression-level
dispatch; unknown kinds become `Nop(kind)`. -/
def analyze_expr (ctx : SemaCtx) :
    Nat → AstNodeRef → SemaState → Option (MxirNodeRef × SemaState)
  | 0, _, _ => none
  | fuel + 1, node_ref, s =>
    match node ctx node_ref with
    | none => none
    | some n =>
      match n.kind with
      | "variable_expr" => analyze_variable_expr ctx node_ref s
      | "call_expr" => analyze_call_expr ctx fuel node_ref s
      | "int_literal" => analyze_int_literal ctx node_ref s
      | "string_literal" => analyze_string_literal ctx node_ref s
      | _ => some (emit_nop s node_ref n.kind)
termination_by structural fuel a0 a1 => fuel

/-- `Sema::analyze_call_expr` (sema.rs lines 305-316): evaluate the
callee at compile time, lower the resolved call (result discarded), then
emit a `Nop`. -/
def analyze_call_expr (ctx : SemaCtx) :
    Nat → AstNodeRef → SemaState → Option (MxirNodeRef × SemaState)
  | 0, _, _ => none
  | fuel + 1, node_ref, s =>
    match node ctx node_ref with
    | none => none
    | some n =>
      match mapGet ("callee") n.named_children with
      | none => none
      | some callee_node_ref =>
        match comptime_eval_comptime_expr ctx fuel callee_node_ref s with
        | none => none
        | some (callee_value, s) =>
          match analyze_resolved_fn_call ctx fuel node_ref callee_value [] [] s with
          | none => none
          | some (_, s) =>
            some (emit_nop s node_ref ("unhandled comptime value 1"))
termination_by structural fuel a0 a1 => fuel

/-- `Sema::analyze_resolved_fn_call` (sema.rs lines 530-581): check the
callee is an `FnDecl`, push a scope for the call site, check the comptime
argument count (the mismatch branch returns *without popping*), lower the
function body, emit `MxirFnDecl`, pop the scope. -/
def analyze_resolved_fn_call (ctx : SemaCtx) :
    Nat → AstNodeRef → ComptimeValue → List ComptimeValue →
      List ComptimeValue → SemaState → Option (MxirNodeRef × SemaState)
  | 0, _, _, _, _, _ => none
  | fuel + 1, node_ref, binding, comptime_args, args, s =>
    match binding with
    | ComptimeValue.FnDecl fn_decl =>
      match node_range ctx node_ref with
      | none => none
      | some range =>
        let s := { s with env := ComptimeEnv.push_scope s.env range }
        if fn_decl.comptime_params.length ≠ comptime_args.length then
          match report ctx s node_ref DiagnosticKind.InvalidFunctionCall with
          | none => none
          | some s => some (emit_nop s node_ref ("invalid function call"))
        else
          match node ctx node_ref with
          | none => none
          | some n =>
            match mapGet ("proto") n.named_children with
            | none => none
            | some proto_node_ref =>
              match node ctx proto_node_ref with
              | none => none
              | some proto_node =>
                match mapGet ("name") proto_node.named_children with
                | none => none
                | some name_node_ref =>
                  match node ctx name_node_ref with
                  | none => none
                  | some name_node =>
                    let name := name_node.text
                    match mapGet ("body") n.named_children with
                    | none => none
                    | some block_ref =>
                      match analyze_node ctx fuel block_ref s with
                      | none => none
                      | some (mxir_body_ref, s) =>
                        let (fn_decl_ref, s) := emit s 0
                          (MxirNodeData.FnDecl { name := name, body := mxir_body_ref })
                        let s := { s with env := ComptimeEnv.pop_scope s.env }
                        some (fn_decl_ref, s)
    | _ =>
      match report ctx s node_ref DiagnosticKind.InvalidFunctionCall with
      | none => none
      | some s => some (emit_nop s node_ref ("invalid function call"))
termination_by structural fuel a0 a1 a2 a3 a4 => fuel
end

/-- `Sema::analyze_source_file` (sema.rs lines 40-82): reserve MXIR slot 0
as an empty `SourceFile`, push the root scope, lower the top-level
children, synthesize the call to `main` (or report
`MissingEntrypointFunction`), backpatch slot 0, pop the root scope.  When
the AST pool has no root node, nothing happens at all. -/
def analyze_source_file (ctx : SemaCtx) (fuel : Nat) (s : SemaState) :
    Option SemaState :=
  let source_file_node_ref : AstNodeRef := 0
  match node ctx source_file_node_ref with
  | none => some s
  | some source_file_node =>
    let (mxir_source_file_node_ref, s) :=
      emit s source_file_node_ref (MxirNodeData.SourceFile [])
    let s := { s with env := ComptimeEnv.push_scope s.env source_file_node.range }
    match analyze_body ctx fuel source_file_node_ref s with
    | none => none
    | some (stmts, s) =>
      let entryStep : Option (List MxirNodeRef × SemaState) :=
        match ComptimeEnv.get s.env ("main") with
        | some main_fn_decl =>
          (analyze_resolved_fn_call ctx fuel main_fn_decl.node_ref
              main_fn_decl.value [] [] s).map
            fun (r, s) => (stmts ++ [r], s)
        | none =>
          (report ctx s source_file_node_ref
              DiagnosticKind.MissingEntrypointFunction).map
            fun s => (stmts, s)
      match entryStep with
      | none => none
      | some (stmts, s) =>
        match s.mxir[mxir_source_file_node_ref]? with
        | none => none
        | some root_node =>
          let new_root :=
            match root_node.data with
            | MxirNodeData.SourceFile b =>
              { root_node with data := MxirNodeData.SourceFile (b ++ stmts) }
            | _ => root_node
          let s := { s with mxir := s.mxir.set mxir_source_file_node_ref new_root }
          some { s with env := ComptimeEnv.pop_scope s.env }

/-- `Sema::analyze` (sema.rs lines 34-38). -/
def analyze (ctx : SemaCtx) (fuel : Nat) : Option (Mxir × List Diagnostic) :=
  (analyze_source_file ctx fuel initState).map fun s => (s.mxir, s.diagnostics)

end Sema

/-! ## Interpreter (interpreter.rs)

The interpreter borrows the completed MXIR read-only (`mxir` is a fixed
argument) and threads the frame stack (`Vec<Frame>`, embedded head-first)
through every evaluation.  Each evaluation returns
`(Option InterpreterValue, ControlFlow, frames)`; Rust panics
(`self.node(..).unwrap()`, `todo!`, `panic!`) and fuel exhaustion are
`none`. -/

/-- `InterpreterValue` from interpreter.rs. -/
inductive InterpreterValue where
  | Integer (v : Int)
  | Float (v : Float)
  | Boolean (v : Bool)
  | StringVal (v : String)

/-- `ControlFlow` from interpreter.rs. -/
inductive ControlFlow where
  | Continue
  | Break
  | Return (v : Option InterpreterValue)

/-- `Frame` from interpreter.rs: the per-call binding map. -/
structure Frame where
  members : List (String × InterpreterValue)

/-- `Frame::new`. -/
def Frame.new : Frame := { members := [] }

/-- The result triple of one evaluation step: produced value, control-flow
signal, and the frame stack after the step. -/
abbrev EvalResult := Option InterpreterValue × ControlFlow × List Frame

namespace Interpreter

/-- `Interpreter::node` (`self.file.mxir().0.get(i).cloned().unwrap()`);
the panic is the `none` case at call sites. -/
def node (mxir : Mxir) (node_ref : MxirNodeRef) : Option MxirNode :=
  mxir[node_ref]?

/-- `Interpreter::register_fn_decls`: index every `FnDecl` by name. -/
def register_fn_decls (mxir : Mxir) : List (String × MxirNodeRef) :=
  (List.range mxir.length).foldl
    (fun symbols i =>
      match mxir[i]? with
      | some n =>
        match n.data with
        | MxirNodeData.FnDecl fn_decl => mapInsert symbols fn_decl.name i
        | _ => symbols
      | none => symbols)
    []

/-- `Interpreter::eval_var_expr`: read the name from the top frame only. -/
def eval_var_expr (var_expr : MxirVarExpr) (frames : List Frame) : EvalResult :=
  match frames.head? with
  | some frame =>
    match mapGet var_expr.name frame.members with
    | some value => (some value, ControlFlow.Continue, frames)
    | none => (none, ControlFlow.Continue, frames)
  | none => (none, ControlFlow.Continue, frames)

mutual

/-- `Interpreter::eval_node_with_control_flow` (interpreter.rs lines
101-131): dispatch on the node's payload.  The catch-all `todo!` (hit for
`FloatLiteral`, `StringLiteral`, `FnDecl`, `BuiltinFnDecl` in evaluation
position) is `none`. -/
def eval_node_with_control_flow (mxir : Mxir) :
    Nat → MxirNode → List Frame → Option EvalResult
  | 0, _, _ => none
  | fuel + 1, n, frames =>
    match n.data with
    | MxirNodeData.SourceFile _ => eval_source_file mxir fuel n.self_ref frames
    | MxirNodeData.CallExpr call_expr => eval_call_expr mxir fuel call_expr frames
    | MxirNodeData.Return ret => eval_return mxir fuel ret frames
    | MxirNodeData.ExprStmt expr_stmt => eval_expr_stmt mxir fuel expr_stmt frames
    | MxirNodeData.IntLiteral int_literal =>
      some (some (InterpreterValue.Integer int_literal.value),
        ControlFlow.Continue, frames)
    | MxirNodeData.Loop loop_stmt => eval_loop mxir fuel loop_stmt frames
    | MxirNodeData.Block _ => eval_block mxir fuel n.self_ref frames
    | MxirNodeData.If if_stmt => eval_if mxir fuel if_stmt frames
    | MxirNodeData.Break => some (none, ControlFlow.Break, frames)
    | MxirNodeData.Continue => some (none, ControlFlow.Continue, frames)
    | MxirNodeData.Nop _ => some (none, ControlFlow.Continue, frames)
    | MxirNodeData.BoolLiteral bool_literal =>
      some (some (InterpreterValue.Boolean bool_literal.value),
        ControlFlow.Continue, frames)
    | MxirNodeData.VarDecl var_decl => eval_var_decl mxir fuel var_decl frames
    | MxirNodeData.VarExpr var_expr => some (eval_var_expr var_expr frames)
    | MxirNodeData.Assign _ _ => eval_assign mxir fuel n.self_ref frames
    | _ => none
termination_by structural fuel a0 a1 => fuel

/-- `Interpreter::eval_source_file`. -/
def eval_source_file (mxir : Mxir) :
    Nat → MxirNodeRef → List Frame → Option EvalResult
  | 0, _, _ => none
  | fuel + 1, node_ref, frames => eval_body mxir fuel node_ref frames
termination_by structural fuel a0 a1 => fuel

/-- `Interpreter::eval_call_expr` (interpreter.rs lines 142-173): push a
frame; an `FnDecl` callee evaluates its body and converts a `Return(v)`
signal into `Continue` with value `v`; a `BuiltinFnDecl` runs its thunk
(no value); any other callee yields `(None, Continue)`; pop the frame. -/
def eval_call_expr (mxir : Mxir) :
    Nat → MxirCallExpr → List Frame → Option EvalResult
  | 0, _, _ => none
  | fuel + 1, call_expr, frames =>
    let frames := Frame.new :: frames
    match node mxir call_expr.fn_decl_ref with
    | none => none
    | some fn_decl_node =>
      match fn_decl_node.data with
      | MxirNodeData.FnDecl fn_decl =>
        match node mxir fn_decl.body with
        | none => none
        | some body_node =>
          match eval_body mxir fuel body_node.self_ref frames with
          | none => none
          | some (result, flow, frames) =>
            let (ret_val, control_flow) :=
              match flow with
              | ControlFlow.Return return_value =>
                (return_value, ControlFlow.Continue)
              | flow => (result, flow)
            some (ret_val, control_flow, frames.tail)
      | MxirNodeData.BuiltinFnDecl _ =>
        -- the thunk is a nullary effect; no value, normal flow
        some (none, ControlFlow.Continue, frames.tail)
      | _ => some (none, ControlFlow.Continue, frames.tail)
termination_by structural fuel a0 a1 => fuel

/-- `Interpreter::eval_return` (interpreter.rs lines 175-183). -/
def eval_return (mxir : Mxir) :
    Nat → MxirReturn → List Frame → Option EvalResult
  | 0, _, _ => none
  | fuel + 1, ret, frames =>
    match ret with
    | some expr_ref =>
      match eval_node_ref mxir fuel expr_ref frames with
      | none => none
      | some (value, frames) =>
        some (none, ControlFlow.Return value, frames)
    | none => some (none, ControlFlow.Return none, frames)
termination_by structural fuel a0 a1 => fuel

/-- `Interpreter::eval_node_ref` (interpreter.rs lines 88-94): evaluate
the node at `node_ref` and keep only its value (the signal is dropped). -/
def eval_node_ref (mxir : Mxir) :
    Nat → MxirNodeRef → List Frame → Option (Option InterpreterValue × List Frame)
  | 0, _, _ => none
  | fuel + 1, node_ref, frames =>
    match node mxir node_ref with
    | none => none
    | some root_node =>
      match eval_node_with_control_flow mxir fuel root_node frames with
      | none => none
      | some (value, _, frames) => some (value, frames)
termination_by structural fuel a0 a1 => fuel

/-- `Interpreter::eval_expr_stmt` (interpreter.rs lines 185-191). -/
def eval_expr_stmt (mxir : Mxir) :
    Nat → MxirNodeRef → List Frame → Option EvalResult
  | 0, _, _ => none
  | fuel + 1, expr_stmt, frames =>
    match node mxir expr_stmt with
    | none => none
    | some n =>
      match eval_node_with_control_flow mxir fuel n frames with
      | none => none
      | some (_, control_flow, frames) => some (none, control_flow, frames)
termination_by structural fuel a0 a1 => fuel

/-- `Interpreter::eval_if` (interpreter.rs lines 193-220): evaluate the
condition, propagate its non-`Continue` signal, otherwise truthiness is
`Boolean(true)` or a non-zero `Integer`; run the chosen branch. -/
def eval_if (mxir : Mxir) :
    Nat → MxirIf → List Frame → Option EvalResult
  | 0, _, _ => none
  | fuel + 1, if_stmt, frames =>
    match node mxir if_stmt.condition with
    | none => none
    | some cond_node =>
      match eval_node_with_control_flow mxir fuel cond_node frames with
      | none => none
      | some (condition_value, condition_flow, frames) =>
        match condition_flow with
        | ControlFlow.Continue =>
          let condition_bool :=
            match condition_value with
            | some (InterpreterValue.Boolean value) => value
            | some (InterpreterValue.Integer value) => value ≠ 0
            | some _ => false
            | none => false
          if condition_bool then
            match node mxir if_stmt.then_branch with
            | none => none
            | some then_node =>
              eval_node_with_control_flow mxir fuel then_node frames
          else
            match if_stmt.else_branch with
            | some else_branch =>
              match node mxir else_branch with
              | none => none
              | some else_node =>
                eval_node_with_control_flow mxir fuel else_node frames
            | none => some (none, ControlFlow.Continue, frames)
        | flow => some (none, flow, frames)
termination_by structural fuel a0 a1 => fuel

/-- `Interpreter::eval_var_decl` (interpreter.rs lines 222-238): evaluate
the optional initializer and, when it produced a value, bind it in the
top frame. -/
def eval_var_decl (mxir : Mxir) :
    Nat → MxirVarDecl → List Frame → Option EvalResult
  | 0, _, _ => none
  | fuel + 1, var_decl, frames =>
    let valueStep : Option (Option InterpreterValue × List Frame) :=
      match var_decl.value with
      | some value_ref =>
        match node mxir value_ref with
        | none => none
        | some value_node =>
          (eval_node_with_control_flow mxir fuel value_node frames).map
            fun (v, _, frames) => (v, frames)
      | none => some (none, frames)
    match valueStep with
    | none => none
    | some (var_value, frames) =>
      match frames with
      | frame :: rest =>
        match var_value with
        | some value =>
          some (none, ControlFlow.Continue,
            { members := mapInsert frame.members var_decl.name value } :: rest)
        | none => some (none, ControlFlow.Continue, frame :: rest)
      | [] => some (none, ControlFlow.Continue, frames)
termination_by structural fuel a0 a1 => fuel

/-- `Interpreter::eval_assign` (interpreter.rs lines 252-283): re-fetch
the `Assign` node, evaluate the right-hand side first, propagate its
signal, then mutate an existing binding in the top frame when the
left-hand side is a `VarExpr` bound there. -/
def eval_assign (mxir : Mxir) :
    Nat → MxirNodeRef → List Frame → Option EvalResult
  | 0, _, _ => none
  | fuel + 1, node_ref, frames =>
    match node mxir node_ref with
    | none => none
    | some n =>
      match n.data with
      | MxirNodeData.Assign lhs rhs =>
        match node mxir lhs with
        | none => none
        | some lhs_node =>
          match node mxir rhs with
          | none => none
          | some rhs_node =>
            match eval_node_with_control_flow mxir fuel rhs_node frames with
            | none => none
            | some (rhs_value, control_flow, frames) =>
              match control_flow with
              | ControlFlow.Continue =>
                match frames with
                | frame :: rest =>
                  match lhs_node.data with
                  | MxirNodeData.VarExpr var_expr =>
                    match mapGet var_expr.name frame.members, rhs_value with
                    | some _, some rhs_val =>
                      some (some rhs_val, ControlFlow.Continue,
                        { members := mapInsert frame.members var_expr.name rhs_val } :: rest)
                    | _, _ => some (none, ControlFlow.Continue, frame :: rest)
                  | _ => some (none, ControlFlow.Continue, frame :: rest)
                | [] => some (none, ControlFlow.Continue, frames)
              | flow => some (none, flow, frames)
      | _ => none
termination_by structural fuel a0 a1 => fuel

/-- `Interpreter::eval_loop` (interpreter.rs lines 285-300): re-evaluate
the body until it signals `Break` (loop yields `Continue`) or `Return`
(propagated); an absent body yields `Continue` immediately. -/
def eval_loop (mxir : Mxir) :
    Nat → MxirLoop → List Frame → Option EvalResult
  | 0, _, _ => none
  | fuel + 1, loop_stmt, frames =>
    match loop_stmt with
    | some body_ref => eval_loop_go mxir fuel body_ref frames
    | none => some (none, ControlFlow.Continue, frames)
termination_by structural fuel a0 a1 => fuel

/-- One iteration of `eval_loop`'s `loop`. -/
def eval_loop_go (mxir : Mxir) :
    Nat → MxirNodeRef → List Frame → Option EvalResult
  | 0, _, _ => none
  | fuel + 1, body_ref, frames =>
    match node mxir body_ref with
    | none => none
    | some body_node =>
      match eval_node_with_control_flow mxir fuel body_node frames with
      | none => none
      | some (_, control_flow, frames) =>
        match control_flow with
        | ControlFlow.Break => some (none, ControlFlow.Continue, frames)
        | ControlFlow.Return value => some (none, ControlFlow.Return value, frames)
        | ControlFlow.Continue => eval_loop_go mxir fuel body_ref frames
termination_by structural fuel a0 a1 => fuel

/-- `Interpreter::eval_block`. -/
def eval_block (mxir : Mxir) :
    Nat → MxirNodeRef → List Frame → Option EvalResult
  | 0, _, _ => none
  | fuel + 1, node_ref, frames => eval_body mxir fuel node_ref frames
termination_by structural fuel a0 a1 => fuel

/-- `Interpreter::eval_body` (interpreter.rs lines 306-330): evaluate the
children of a `SourceFile` or `Block` left to right, keeping the last
value; a `Break` or `Return` signal stops and propagates. -/
def eval_body (mxir : Mxir) :
    Nat → MxirNodeRef → List Frame → Option EvalResult
  | 0, _, _ => none
  | fuel + 1, node_ref, frames =>
    match node mxir node_ref with
    | none => none
    | some n =>
      match n.data with
      | MxirNodeData.SourceFile source_file =>
        eval_body_loop mxir fuel source_file none frames
      | MxirNodeData.Block block =>
        eval_body_loop mxir fuel block none frames
      | _ => none
termination_by structural fuel a0 a1 => fuel

/-- The body of `eval_body`'s `for` loop; `result` is the value of the
last child evaluated so far. -/
def eval_body_loop (mxir : Mxir) :
    Nat → List MxirNodeRef → Option InterpreterValue → List Frame →
      Option EvalResult
  | 0, _, _, _ => none
  | fuel + 1, cs, result, frames =>
    match cs with
    | [] => some (result, ControlFlow.Continue, frames)
    | child_ref :: rest =>
    match node mxir child_ref with
    | none => none
    | some child_node =>
      match eval_node_with_control_flow mxir fuel child_node frames with
      | none => none
      | some (value, control_flow, frames) =>
        match control_flow with
        | ControlFlow.Continue => eval_body_loop mxir fuel rest value frames
        | ControlFlow.Break => some (value, ControlFlow.Break, frames)
        | ControlFlow.Return v => some (value, ControlFlow.Return v, frames)
termination_by structural fuel a0 a1 a2 => fuel
end

end Interpreter

/-! ## Concrete fixtures

Small concrete programs used by witnesses and counterexamples. -/

/-- Build an `AstNode` with a schematic one-character range at row `i`. -/
def mkNode (i : Nat) (kind : String) (text : String)
    (named : List (String × Nat)) (children : List Nat) : AstNode :=
  { self_ref := i, kind := kind, range := ⟨⟨i, 0⟩, ⟨i, 1⟩⟩, text := text,
    named_children := named, children := children }

/-- The empty program: a source-file root with no children. -/
def astEmpty : Ast := [mkNode 0 ("source_file") "" [] []]

/-- `fn main(): 0 { }` — a single `main`, no comptime parameters. -/
def astMainOnly : Ast :=
  [mkNode 0 ("source_file") "" [] [1],
   mkNode 1 ("fn_decl") "" [("proto", 2), ("body", 5)] [],
   mkNode 2 ("fn_proto") "" [("name", 3), ("return_type", 4)] [],
   mkNode 3 ("identifier") ("main") [] [],
   mkNode 4 ("comptime_expr") ("0") [("expr", 6)] [],
   mkNode 5 ("block") "" [] [],
   mkNode 6 ("int_literal") ("0") [] []]

/-- `fn main(comptime T: 42)(): 0 { }` — a single `main` declaring one
comptime parameter. -/
def astMainComptime : Ast :=
  [mkNode 0 ("source_file") "" [] [1],
   mkNode 1 ("fn_decl") "" [("proto", 2), ("body", 5)] [],
   mkNode 2 ("fn_proto") ""
     [("name", 3), ("return_type", 4), ("comptime_params", 7)] [],
   mkNode 3 ("identifier") ("main") [] [],
   mkNode 4 ("comptime_expr") ("0") [("expr", 6)] [],
   mkNode 5 ("block") "" [] [],
   mkNode 6 ("int_literal") ("0") [] [],
   mkNode 7 ("param_list") "" [] [8],
   mkNode 8 ("param") "" [("name", 9), ("type", 10)] [],
   mkNode 9 ("identifier") ("T") [] [],
   mkNode 10 ("comptime_expr") ("42") [("expr", 11)] [],
   mkNode 11 ("int_literal") ("42") [] []]

/-- `fn main(): 0 { var x = y; }` — `main` whose body initializes a
variable from the unbound name `y`. -/
def astMainVarUndef : Ast :=
  [mkNode 0 ("source_file") "" [] [1],
   mkNode 1 ("fn_decl") "" [("proto", 2), ("body", 5)] [],
   mkNode 2 ("fn_proto") "" [("name", 3), ("return_type", 4)] [],
   mkNode 3 ("identifier") ("main") [] [],
   mkNode 4 ("comptime_expr") ("0") [("expr", 6)] [],
   mkNode 5 ("block") "" [] [7],
   mkNode 6 ("int_literal") ("0") [] [],
   mkNode 7 ("var_decl") "" [("name", 8), ("value", 9)] [],
   mkNode 8 ("identifier") ("x") [] [],
   mkNode 9 ("variable_expr") ("y") [] []]

/-- Observer: the message of a `Nop` node, if any. -/
def isNopMsg : MxirNodeData → Option String
  | MxirNodeData.Nop m => some m
  | _ => none

/-- MXIR for `main` whose body is `{ return 42; }`. -/
def mxirCall42 : Mxir :=
  [⟨0, 0, MxirNodeData.FnDecl ⟨"main", 1⟩⟩,
   ⟨1, 0, MxirNodeData.Block [2]⟩,
   ⟨2, 0, MxirNodeData.Return (some 3)⟩,
   ⟨3, 0, MxirNodeData.IntLiteral ⟨42⟩⟩]

/-- MXIR for a loop whose body immediately breaks. -/
def mxirLoopBreak : Mxir :=
  [⟨0, 0, MxirNodeData.Loop (some 1)⟩,
   ⟨1, 0, MxirNodeData.Break⟩]

/-- A one-scope comptime environment binding the name `m`. -/
def envWithM : ComptimeEnv :=
  SymbolTableSet.insert
    (ComptimeEnv.push_scope ComptimeEnv.new ⟨⟨0, 0⟩, ⟨0, 1⟩⟩)
    ("m") ⟨0, none, ComptimeValue.Undefined⟩

/-- Frame discipline of a single evaluation step: the step may rebuild the
top frame but leaves the depth and the frames below the top unchanged. -/
def FramesOK (a b : List Frame) : Prop :=
  b.length = a.length ∧ b.drop 1 = a.drop 1

/-- A `comptime_expr` wrapping an `fn_proto` whose return type is `7`. -/
def astCtFnProto : Ast :=
  [mkNode 0 ("comptime_expr") "" [("expr", 1)] [],
   mkNode 1 ("fn_proto") "" [("return_type", 2)] [],
   mkNode 2 ("comptime_expr") ("7") [("expr", 3)] [],
   mkNode 3 ("int_literal") ("7") [] []]

/-- A sema state that already owns one MXIR node. -/
def sCt : SemaState :=
  { env := ComptimeEnv.new,
    mxir := [⟨0, 0, MxirNodeData.Nop ("w")⟩],
    diagnostics := [] }

/-- The state after compile-time evaluating `astCtFnProto` from `sCt`: the
proto scope was pushed and popped (its table remains in the pool) and the
MXIR vector is untouched. -/
def sCt2 : SemaState :=
  { env := ⟨[⟨⟨⟨1, 0⟩, ⟨1, 1⟩⟩, none, []⟩], []⟩,
    mxir := [⟨0, 0, MxirNodeData.Nop ("w")⟩],
    diagnostics := [] }

/-- The canonical shape of a parsed program whose only declaration is a
single comptime-parameter-free `fn main` with an empty body, up to node
ranges, node texts and the return-type literal text: root `source_file`
(node 0) with the single child `fn_decl` (node 1), whose prototype
(node 2) names `main` (node 3), returns the `comptime_expr` (node 4)
wrapping an `int_literal` (node 6), and whose body is the empty `block`
(node 5). -/
def mkMainOnlyAst (r0 r1 r2 r3 r4 r5 r6 : Range)
    (t0 t1 t2 t5 t6 : String) (retText : String) : Ast :=
  [⟨0, ("source_file"), r0, t0, [], [1]⟩,
   ⟨1, ("fn_decl"), r1, t1, [(("proto"), 2), (("body"), 5)], []⟩,
   ⟨2, ("fn_proto"), r2, t2, [(("name"), 3), (("return_type"), 4)], []⟩,
   ⟨3, ("identifier"), r3, ("main"), [], []⟩,
   ⟨4, ("comptime_expr"), r4, retText, [(("expr"), 6)], []⟩,
   ⟨5, ("block"), r5, t5, [], []⟩,
   ⟨6, ("int_literal"), r6, t6, [], []⟩]

/-- The `MxirNodeRef`s appearing in a node payload. -/
def payloadRefs : MxirNodeData → List MxirNodeRef
  | MxirNodeData.SourceFile b => b
  | MxirNodeData.Block b => b
  | MxirNodeData.FnDecl d => [d.body]
  | MxirNodeData.VarDecl d => d.value.toList
  | MxirNodeData.ExprStmt child => [child]
  | MxirNodeData.Return r => r.toList
  | MxirNodeData.Loop l => l.toList
  | MxirNodeData.If i => i.condition :: i.then_branch :: i.else_branch.toList
  | MxirNodeData.Assign lhs rhs => [lhs, rhs]
  | MxirNodeData.CallExpr c => c.fn_decl_ref :: c.args
  | _ => []

/-- MXIR reference monotonicity: each slot holds its own index as
`self_ref`, and — except for the backpatched `SourceFile` slot 0 — every
payload reference points strictly below the node itself. -/
def MxirInv (m : Mxir) : Prop :=
  ∀ i node, m[i]? = some node →
    node.self_ref = i ∧ (i ≠ 0 → ∀ r ∈ payloadRefs node.data, r < i)

/-- One analysis step only appends MXIR nodes and preserves the
monotonicity invariant. -/
def MxirStep (s s2 : SemaState) : Prop :=
  (∃ ext, s2.mxir = s.mxir ++ ext) ∧ (MxirInv s.mxir → MxirInv s2.mxir)

theorem chainInv_new {V D : Type} : ChainInv (SymbolTableSet.new (V := V) (D := D)) := by
  constructor
  · simp [SymbolTableSet.new]
  · intro i r h
    simp [SymbolTableSet.new] at h

theorem chainInv_push {V D : Type} {s : SymbolTableSet V D} (h : ChainInv s)
    (d : D) : ChainInv (s.push_table d).1 := by
  obtain ⟨hlen, hch⟩ := h
  constructor
  · simp [SymbolTableSet.push_table]
    omega
  · intro i r hr
    match i with
    | 0 =>
      simp only [SymbolTableSet.push_table, List.getElem?_cons_zero,
        Option.some.injEq] at hr
      subst hr
      refine ⟨⟨d, s.current_table_ref, []⟩, ?_, ?_⟩
      · exact List.getElem?_concat_length s.tables _
      · simp only [SymbolTableSet.current_table_ref, SymbolTableSet.push_table]
        cases s.stack with
        | nil => simp
        | cons a l => simp
    | i + 1 =>
      simp only [SymbolTableSet.push_table, List.getElem?_cons_succ] at hr ⊢
      obtain ⟨t, ht, hp⟩ := hch i r hr
      have hrlen : r < s.tables.length := (List.getElem?_eq_some_iff.1 ht).1
      exact ⟨t, by rw [List.getElem?_append_left hrlen]; exact ht, hp⟩

theorem chainInv_pop {V D : Type} {s : SymbolTableSet V D} (h : ChainInv s) :
    ChainInv (s.pop_table).1 := by
  obtain ⟨hlen, hch⟩ := h
  constructor
  · simp only [SymbolTableSet.pop_table]
    calc s.stack.tail.length ≤ s.stack.length := by
          cases s.stack <;> simp
      _ ≤ s.tables.length := hlen
  · intro i r hr
    simp only [SymbolTableSet.pop_table] at hr ⊢
    cases hst : s.stack with
    | nil => rw [hst] at hr; simp at hr
    | cons a l =>
      rw [hst] at hr
      simp only [List.tail_cons] at hr ⊢
      obtain ⟨t, ht, hp⟩ := hch (i + 1) r (by rw [hst]; simpa using hr)
      refine ⟨t, ht, ?_⟩
      rw [hst] at hp
      simpa using hp

theorem insert_stack {V D : Type} (s : SymbolTableSet V D) (name : String)
    (v : V) : (s.insert name v).stack = s.stack := by
  unfold SymbolTableSet.insert
  split
  · rfl
  · split
    · rfl
    · rfl

theorem insert_tables_shape {V D : Type} (s : SymbolTableSet V D)
    (name : String) (v : V) :
    (s.insert name v).tables = s.tables ∨
      ∃ r t, s.tables[r]? = some t ∧
        (s.insert name v).tables =
          s.tables.set r { t with members := mapInsert t.members name v } := by
  unfold SymbolTableSet.insert
  split
  · exact Or.inl rfl
  · next r hr =>
      split
      · exact Or.inl rfl
      · next t ht => exact Or.inr ⟨r, t, ht, rfl⟩

theorem chainInv_insert {V D : Type} {s : SymbolTableSet V D} (h : ChainInv s)
    (name : String) (v : V) : ChainInv (s.insert name v) := by
  obtain ⟨hlen, hch⟩ := h
  rcases insert_tables_shape s name v with htab | ⟨r0, t0, hg, htab⟩
  · constructor
    · rw [insert_stack, htab]
      exact hlen
    · intro i r hr
      rw [insert_stack] at hr
      rw [htab, insert_stack]
      exact hch i r hr
  · constructor
    · rw [insert_stack, htab]
      simpa using hlen
    · intro i r hr
      rw [insert_stack] at hr
      rw [htab, insert_stack]
      obtain ⟨t, ht, hp⟩ := hch i r hr
      by_cases hcase : r = r0
      · subst hcase
        have hlt : r < s.tables.length := (List.getElem?_eq_some_iff.1 ht).1
        refine ⟨{ t0 with members := mapInsert t0.members name v }, ?_, ?_⟩
        · rw [List.getElem?_set_self hlt]
        · rw [ht] at hg
          cases hg
          exact hp
      · refine ⟨t, ?_, hp⟩
        rw [List.getElem?_set_ne (fun hne => hcase hne.symm)]
        exact ht

theorem chainInv_runOps {V D : Type} (ops : List (TableOp V D)) :
    ChainInv (runOps ops) := by
  suffices h : ∀ (s : SymbolTableSet V D), ChainInv s →
      ChainInv (ops.foldl (fun s op =>
        match op with
        | .push d => (s.push_table d).1
        | .insert name v => s.insert name v
        | .pop => (s.pop_table).1) s) by
    exact h _ chainInv_new
  induction ops with
  | nil => intro s hs; exact hs
  | cons op rest ih =>
    intro s hs
    cases op with
    | push d => exact ih _ (chainInv_push hs d)
    | insert name v => exact ih _ (chainInv_insert hs name v)
    | pop => exact ih _ (chainInv_pop hs)

/-- Under the chain invariant, the parent-chain walk starting at the stack
entry in position `i` computes exactly the top-down stack walk from
position `i`, provided at least `stack.length - i` fuel. -/
theorem lookupAux_eq_stack_walk {V D : Type} {s : SymbolTableSet V D}
    (h : ChainInv s) (name : String) :
    ∀ fuel i r, s.stack[i]? = some r → s.stack.length - i ≤ fuel →
      SymbolTableSet.lookupAux s.tables name r fuel =
        (s.stack.drop i).findSome? fun r =>
          s.tables[r]?.bind fun t => mapGet name t.members := by
  intro fuel
  induction fuel with
  | zero =>
    intro i r hr hfuel
    have : i < s.stack.length := (List.getElem?_eq_some_iff.1 hr).1
    omega
  | succ fuel ih =>
    intro i r hr hfuel
    obtain ⟨t, ht, hp⟩ := h.2 i r hr
    have hlt : i < s.stack.length := (List.getElem?_eq_some_iff.1 hr).1
    have hdropi : s.stack.drop i = r :: s.stack.drop (i + 1) := by
      rw [List.drop_eq_getElem_cons hlt]
      have : s.stack[i] = r := by
        have := hr
        rw [List.getElem?_eq_some_iff] at this
        obtain ⟨hh, hv⟩ := this
        exact hv
      rw [this]
    rw [hdropi]
    unfold SymbolTableSet.lookupAux
    rw [ht]
    simp only [List.findSome?_cons]
    cases hm : mapGet name t.members with
    | some v => simp [ht, hm]
    | none =>
      simp only [ht, Option.some_bind, hm]
      rw [hp]
      cases hr2 : s.stack[i + 1]? with
      | none =>
        have hle : s.stack.length ≤ i + 1 := by
          by_contra hcon
          push_neg at hcon
          rw [List.getElem?_eq_none_iff] at hr2
          omega
        rw [List.drop_eq_nil_of_le hle]
        simp
      | some r2 =>
        exact ih (i + 1) r2 hr2 (by omega)

theorem lookup_eq_stackLookup_of_inv {V D : Type} {s : SymbolTableSet V D}
    (h : ChainInv s) (name : String) :
    s.lookup name = stackLookup s name := by
  cases hst : s.stack with
  | nil =>
    simp [SymbolTableSet.lookup, SymbolTableSet.current_table_ref,
      stackLookup, hst]
  | cons r0 rest =>
    have h0 : s.stack[0]? = some r0 := by rw [hst]; simp
    have hfuel : s.stack.length - 0 ≤ s.tables.length + 1 := by
      have := h.1
      omega
    have hmain := lookupAux_eq_stack_walk h name (s.tables.length + 1) 0 r0 h0 hfuel
    simp only [List.drop_zero] at hmain
    simp only [SymbolTableSet.lookup, SymbolTableSet.current_table_ref, hst,
      List.head?_cons]
    rw [hst] at hmain
    rw [hmain]
    unfold stackLookup
    rw [hst]

theorem mapGet_mapInsert {V : Type} (m : List (String × V)) (k : String)
    (v : V) : mapGet k (mapInsert m k v) = some v := by
  simp [mapGet, mapInsert]

/-- C5: for every sequence of `push`/`insert`/`pop` operations on the
scope stack, the parent-chain `lookup` resolves exactly as a top-down walk
of the active stack, and any binding it returns lives in a table still on
the active stack — so a popped table, which is never on the stack again,
can never supply a result, no matter what is pushed afterwards. -/
theorem C5_lookup_only_active_chain {V D : Type} (ops : List (TableOp V D))
    (name : String) :
    (runOps ops).lookup name = stackLookup (runOps ops) name ∧
      ∀ v, (runOps ops).lookup name = some v →
        ∃ r, r ∈ (runOps ops).stack ∧
          ∃ t, (runOps ops).tables[r]? = some t ∧ mapGet name t.members = some v := by
  have heq := lookup_eq_stackLookup_of_inv (chainInv_runOps ops) name
  refine ⟨heq, ?_⟩
  intro v hv
  rw [heq] at hv
  obtain ⟨r, hr, hf⟩ := List.exists_of_findSome?_eq_some hv
  obtain ⟨t, ht, hm⟩ := Option.bind_eq_some.1 hf
  exact ⟨r, hr, t, ht, hm⟩

/-- C5 witness: on the concrete sequence push, insert x 1, push, pop,
push — the lookup agrees with the stack walk, and the binding it returns
lives in a table still on the active stack. -/
theorem C5_witness :
    ((runOps (V := Nat) (D := Unit)
      [TableOp.push (), TableOp.insert ("x") 1, TableOp.push (), TableOp.pop,
       TableOp.push ()]).lookup ("x") =
        stackLookup (runOps (V := Nat) (D := Unit)
          [TableOp.push (), TableOp.insert ("x") 1, TableOp.push (), TableOp.pop,
           TableOp.push ()]) ("x")) ∧
      ∃ r, r ∈ (runOps (V := Nat) (D := Unit)
          [TableOp.push (), TableOp.insert ("x") 1, TableOp.push (), TableOp.pop,
           TableOp.push ()]).stack ∧
        ∃ t, (runOps (V := Nat) (D := Unit)
            [TableOp.push (), TableOp.insert ("x") 1, TableOp.push (), TableOp.pop,
             TableOp.push ()]).tables[r]? = some t ∧
          mapGet ("x") t.members = some 1 :=
  ⟨(C5_lookup_only_active_chain
      [TableOp.push (), TableOp.insert ("x") 1, TableOp.push (), TableOp.pop,
       TableOp.push ()] ("x")).1,
    (C5_lookup_only_active_chain
      [TableOp.push (), TableOp.insert ("x") 1, TableOp.push (), TableOp.pop,
       TableOp.push ()] ("x")).2 1 rfl⟩

/-- C7 counterexample: starting from the reachable set `push; insert x 1`,
a second `insert x 2` does *not* leave the stored binding unchanged — the
top-table lookup afterwards yields the new binding `2`, not `1`. -/
theorem C7_counterexample :
    SymbolTableSet.get (runOps (V := Nat) (D := Unit)
        [TableOp.push (), TableOp.insert ("x") 1]) ("x") = some 1 ∧
      SymbolTableSet.get
        ((runOps (V := Nat) (D := Unit)
          [TableOp.push (), TableOp.insert ("x") 1]).insert ("x") 2) ("x") = some 2 := by
  constructor
  · rfl
  · rfl

/-- C7 (amended): `insert(name, binding)` into an existing top table
*overwrites* any stored binding for `name` (the new binding wins), and the
`declare_*` callers preserve existing bindings only because they check
`get` first and return an error instead of inserting. -/
theorem C7_insert_overwrites :
    (∀ (V D : Type) (s : SymbolTableSet V D) (name : String) (v : V)
        (r : Nat) (t : SymbolTable V D),
      s.stack.head? = some r → s.tables[r]? = some t →
        SymbolTableSet.get (s.insert name v) name = some v) ∧
    (∀ (e : ComptimeEnv) (node_ref : AstNodeRef) (name : String)
        (ty : Option ComptimeValue) (value : ComptimeValue),
      (ComptimeEnv.get e name).isSome = true →
        ComptimeEnv.declare_const e node_ref name ty value =
          Except.error ("Duplicate declaration")) := by
  constructor
  · intro V D s name v r t hhead ht
    have hlt : r < s.tables.length := (List.getElem?_eq_some_iff.1 ht).1
    unfold SymbolTableSet.insert
    rw [hhead]
    simp only [ht]
    unfold SymbolTableSet.get SymbolTableSet.current_table
      SymbolTableSet.current_table_ref
    simp only [hhead, Option.some_bind, List.getElem?_set_self hlt,
      mapGet_mapInsert]
  · intro e node_ref name ty value hsome
    unfold ComptimeEnv.declare_const
    rw [if_pos hsome]

/-- C7 witness for the amended statement: overwriting on a concrete
reachable set, and `declare_const` refusing a duplicate on a concrete
environment. -/
theorem C7_witness :
    SymbolTableSet.get
        ((runOps (V := Nat) (D := Unit)
          [TableOp.push (), TableOp.insert ("x") 1]).insert ("x") 2) ("x") = some 2 ∧
      ComptimeEnv.declare_const envWithM 0 ("m") none ComptimeValue.Undefined =
        Except.error ("Duplicate declaration") :=
  ⟨C7_insert_overwrites.1 Nat Unit
      (runOps [TableOp.push (), TableOp.insert ("x") 1]) ("x") 2 0
      ⟨(), none, [(("x"), 1)]⟩ rfl rfl,
    C7_insert_overwrites.2 envWithM 0 ("m") none ComptimeValue.Undefined rfl⟩

/-! ## Interpreter frame discipline -/

theorem framesOK_refl (a : List Frame) : FramesOK a a := ⟨rfl, rfl⟩

theorem framesOK_of_eq {a b : List Frame} (h : b = a) : FramesOK a b := by
  subst h; exact framesOK_refl _

theorem framesOK_trans {a b c : List Frame} (h1 : FramesOK a b)
    (h2 : FramesOK b c) : FramesOK a c :=
  ⟨h2.1.trans h1.1, h2.2.trans h1.2⟩

theorem framesOK_top {x y : Frame} {r : List Frame} :
    FramesOK (x :: r) (y :: r) := ⟨rfl, rfl⟩

theorem framesOK_replace_top {a : List Frame} {x y : Frame} {r : List Frame}
    (h : FramesOK a (x :: r)) : FramesOK a (y :: r) :=
  framesOK_trans h framesOK_top

theorem framesOK_cons_shape {x : Frame} {r t : List Frame}
    (h : FramesOK (x :: r) t) : t = t.head?.getD x :: r := by
  obtain ⟨hlen, hdrop⟩ := h
  cases t with
  | nil => simp at hlen
  | cons y ys =>
    simp only [List.drop_succ_cons, List.drop_zero] at hdrop
    simp [hdrop]

theorem framesOK_tail {x : Frame} {r t : List Frame}
    (h : FramesOK (x :: r) t) : t.tail = r := by
  rw [framesOK_cons_shape h]
  rfl

theorem eval_var_expr_frames (var_expr : MxirVarExpr) (frames : List Frame) :
    (Interpreter.eval_var_expr var_expr frames).2.2 = frames := by
  unfold Interpreter.eval_var_expr
  split
  · split
    · rfl
    · rfl
  · rfl


/-- The frame invariant, proved for the whole evaluation cluster by one
induction on fuel: every evaluator preserves the depth of the frame stack
and every frame below the top, and `eval_call_expr` restores the frame
stack exactly. -/
theorem interp_frames (fuel : Nat) :
    (∀ mxir n frames out,
      Interpreter.eval_node_with_control_flow mxir fuel n frames = some out →
        FramesOK frames out.2.2) ∧
    (∀ mxir r frames out,
      Interpreter.eval_source_file mxir fuel r frames = some out →
        FramesOK frames out.2.2) ∧
    (∀ mxir ce frames out,
      Interpreter.eval_call_expr mxir fuel ce frames = some out →
        out.2.2 = frames) ∧
    (∀ mxir ret frames out,
      Interpreter.eval_return mxir fuel ret frames = some out →
        FramesOK frames out.2.2) ∧
    (∀ mxir r frames out,
      Interpreter.eval_node_ref mxir fuel r frames = some out →
        FramesOK frames out.2) ∧
    (∀ mxir r frames out,
      Interpreter.eval_expr_stmt mxir fuel r frames = some out →
        FramesOK frames out.2.2) ∧
    (∀ mxir i frames out,
      Interpreter.eval_if mxir fuel i frames = some out →
        FramesOK frames out.2.2) ∧
    (∀ mxir vd frames out,
      Interpreter.eval_var_decl mxir fuel vd frames = some out →
        FramesOK frames out.2.2) ∧
    (∀ mxir r frames out,
      Interpreter.eval_assign mxir fuel r frames = some out →
        FramesOK frames out.2.2) ∧
    (∀ mxir l frames out,
      Interpreter.eval_loop mxir fuel l frames = some out →
        FramesOK frames out.2.2) ∧
    (∀ mxir r frames out,
      Interpreter.eval_loop_go mxir fuel r frames = some out →
        FramesOK frames out.2.2) ∧
    (∀ mxir r frames out,
      Interpreter.eval_block mxir fuel r frames = some out →
        FramesOK frames out.2.2) ∧
    (∀ mxir r frames out,
      Interpreter.eval_body mxir fuel r frames = some out →
        FramesOK frames out.2.2) ∧
    (∀ mxir cs res frames out,
      Interpreter.eval_body_loop mxir fuel cs res frames = some out →
        FramesOK frames out.2.2) := by
  induction fuel with
  | zero =>
    refine ⟨?_, ?_, ?_, ?_, ?_, ?_, ?_, ?_, ?_, ?_, ?_, ?_, ?_, ?_⟩ <;>
      · intros
        rename_i h
        exact Option.noConfusion h
  | succ fuel ih =>
    obtain ⟨ihNode, ihSrc, ihCall, ihRet, ihNodeRef, ihExprStmt, ihIf,
      ihVarDecl, ihAssign, ihLoop, ihLoopGo, ihBlock, ihBody, ihBodyLoop⟩ := ih
    refine ⟨?_, ?_, ?_, ?_, ?_, ?_, ?_, ?_, ?_, ?_, ?_, ?_, ?_, ?_⟩
    -- eval_node_with_control_flow
    · intro mxir n frames out h
      unfold Interpreter.eval_node_with_control_flow at h
      split at h
      · exact ihSrc _ _ _ _ h
      · exact framesOK_of_eq (ihCall _ _ _ _ h)
      · exact ihRet _ _ _ _ h
      · exact ihExprStmt _ _ _ _ h
      · cases h; exact framesOK_refl _
      · exact ihLoop _ _ _ _ h
      · exact ihBlock _ _ _ _ h
      · exact ihIf _ _ _ _ h
      · cases h; exact framesOK_refl _
      · cases h; exact framesOK_refl _
      · cases h; exact framesOK_refl _
      · cases h; exact framesOK_refl _
      · exact ihVarDecl _ _ _ _ h
      · cases h
        exact framesOK_of_eq (eval_var_expr_frames _ frames)
      · exact ihAssign _ _ _ _ h
      · exact absurd h (by simp)
    -- eval_source_file
    · intro mxir r frames out h
      unfold Interpreter.eval_source_file at h
      exact ihBody _ _ _ _ h
    -- eval_call_expr
    · intro mxir ce frames out h
      unfold Interpreter.eval_call_expr at h
      simp only [] at h
      split at h
      · exact absurd h (by simp)
      · split at h
        · split at h
          · exact absurd h (by simp)
          · split at h
            · exact absurd h (by simp)
            · next result flow frames2 hbody =>
                have hOK := ihBody _ _ _ _ hbody
                split at h <;>
                  · cases h
                    exact framesOK_tail hOK
        · cases h
          simp
        · cases h
          simp
    -- eval_return
    · intro mxir ret frames out h
      unfold Interpreter.eval_return at h
      split at h
      · split at h
        · exact absurd h (by simp)
        · next value frames2 href =>
            have hOK := ihNodeRef _ _ _ _ href
            cases h
            exact hOK
      · cases h
        exact framesOK_refl _
    -- eval_node_ref
    · intro mxir r frames out h
      unfold Interpreter.eval_node_ref at h
      split at h
      · exact absurd h (by simp)
      · split at h
        · exact absurd h (by simp)
        · next value cf frames2 heval =>
            have hOK := ihNode _ _ _ _ heval
            cases h
            exact hOK
    -- eval_expr_stmt
    · intro mxir r frames out h
      unfold Interpreter.eval_expr_stmt at h
      split at h
      · exact absurd h (by simp)
      · split at h
        · exact absurd h (by simp)
        · next v cf frames2 heval =>
            have hOK := ihNode _ _ _ _ heval
            cases h
            exact hOK
    -- eval_if
    · intro mxir i frames out h
      unfold Interpreter.eval_if at h
      split at h
      · exact absurd h (by simp)
      · split at h
        · exact absurd h (by simp)
        · next condition_value condition_flow frames2 hcond =>
            have hOK := ihNode _ _ _ _ hcond
            split at h
            · simp only [] at h
              split at h
              · split at h
                · exact absurd h (by simp)
                · exact framesOK_trans hOK (ihNode _ _ _ _ h)
              · split at h
                · split at h
                  · exact absurd h (by simp)
                  · exact framesOK_trans hOK (ihNode _ _ _ _ h)
                · cases h
                  exact hOK
            · cases h
              exact hOK
    -- eval_var_decl
    · intro mxir vd frames out h
      unfold Interpreter.eval_var_decl at h
      simp only [] at h
      split at h
      · exact absurd h (by simp)
      · next var_value frames2 heq =>
          have hOK : FramesOK frames frames2 := by
            split at heq
            · split at heq
              · exact absurd heq (by simp)
              · next value_node hnode =>
                  cases heval : Interpreter.eval_node_with_control_flow mxir
                      fuel value_node frames with
                  | none => rw [heval] at heq; cases heq
                  | some res =>
                    rw [heval] at heq
                    obtain ⟨v, cf, fr⟩ := res
                    cases heq
                    exact ihNode _ _ _ _ heval
            · cases heq
              exact framesOK_refl _
          split at h
          · split at h
            · cases h
              exact framesOK_replace_top hOK
            · cases h
              exact hOK
          · cases h
            exact hOK
    -- eval_assign
    · intro mxir r frames out h
      unfold Interpreter.eval_assign at h
      split at h
      · exact absurd h (by simp)
      · split at h
        · split at h
          · exact absurd h (by simp)
          · split at h
            · exact absurd h (by simp)
            · split at h
              · exact absurd h (by simp)
              · next rhs_value control_flow frames2 hrhs =>
                  have hOK := ihNode _ _ _ _ hrhs
                  split at h
                  · split at h
                    · split at h
                      · split at h
                        · cases h
                          exact framesOK_replace_top hOK
                        · cases h
                          exact hOK
                      · cases h
                        exact hOK
                    · cases h
                      exact hOK
                  · cases h
                    exact hOK
        · exact absurd h (by simp)
    -- eval_loop
    · intro mxir l frames out h
      unfold Interpreter.eval_loop at h
      split at h
      · exact ihLoopGo _ _ _ _ h
      · cases h
        exact framesOK_refl _
    -- eval_loop_go
    · intro mxir r frames out h
      unfold Interpreter.eval_loop_go at h
      split at h
      · exact absurd h (by simp)
      · split at h
        · exact absurd h (by simp)
        · next v control_flow frames2 hbody =>
            have hOK := ihNode _ _ _ _ hbody
            split at h
            · cases h
              exact hOK
            · cases h
              exact hOK
            · exact framesOK_trans hOK (ihLoopGo _ _ _ _ h)
    -- eval_block
    · intro mxir r frames out h
      unfold Interpreter.eval_block at h
      exact ihBody _ _ _ _ h
    -- eval_body
    · intro mxir r frames out h
      unfold Interpreter.eval_body at h
      split at h
      · exact absurd h (by simp)
      · split at h
        · exact ihBodyLoop _ _ _ _ _ h
        · exact ihBodyLoop _ _ _ _ _ h
        · exact absurd h (by simp)
    -- eval_body_loop
    · intro mxir cs res frames out h
      unfold Interpreter.eval_body_loop at h
      split at h
      · cases h
        exact framesOK_refl _
      · split at h
        · exact absurd h (by simp)
        · split at h
          · exact absurd h (by simp)
          · next value control_flow frames2 hchild =>
              have hOK := ihNode _ _ _ _ hchild
              split at h
              · exact framesOK_trans hOK (ihBodyLoop _ _ _ _ _ h)
              · cases h
                exact hOK
              · cases h
                exact hOK

/-! ## Control-flow containment -/

theorem eval_loop_go_no_break (fuel : Nat) :
    ∀ mxir r frames out, Interpreter.eval_loop_go mxir fuel r frames = some out →
      out.2.1 ≠ ControlFlow.Break := by
  induction fuel with
  | zero =>
    intro mxir r frames out h
    exact Option.noConfusion h
  | succ fuel ih =>
    intro mxir r frames out h
    unfold Interpreter.eval_loop_go at h
    split at h
    · exact absurd h (by simp)
    · split at h
      · exact absurd h (by simp)
      · next v cf frames2 hbody =>
          split at h
          · cases h
            simp
          · cases h
            simp
          · exact ih _ _ _ _ h

theorem eval_loop_no_break (mxir : Mxir) (fuel : Nat) (loop_stmt : MxirLoop)
    (frames : List Frame) (out : EvalResult)
    (h : Interpreter.eval_loop mxir fuel loop_stmt frames = some out) :
    out.2.1 ≠ ControlFlow.Break := by
  match fuel with
  | 0 => exact Option.noConfusion h
  | fuel + 1 =>
    unfold Interpreter.eval_loop at h
    split at h
    · exact eval_loop_go_no_break fuel _ _ _ _ h
    · cases h
      simp

theorem eval_call_expr_no_return (mxir : Mxir) (fuel : Nat)
    (call_expr : MxirCallExpr) (frames : List Frame) (out : EvalResult)
    (h : Interpreter.eval_call_expr mxir fuel call_expr frames = some out) :
    ∀ v, out.2.1 ≠ ControlFlow.Return v := by
  match fuel with
  | 0 => exact Option.noConfusion h
  | fuel + 1 =>
    unfold Interpreter.eval_call_expr at h
    simp only [] at h
    split at h
    · exact absurd h (by simp)
    · split at h
      · split at h
        · exact absurd h (by simp)
        · split at h
          · exact absurd h (by simp)
          · next result flow frames2 hbody =>
              split at h
              · cases h
                intro v
                simp
              · next hne =>
                  cases h
                  intro v
                  exact hne v
      · cases h
        intro v
        simp
      · cases h
        intro v
        simp

/-- C2: control-flow signals stop exactly where the spec says.  A `Break`
arising in a `Loop` body is consumed by that loop (the loop itself never
yields `Break`, and a body signalling `Break` makes the loop yield
`Continue` with no value); a `Return(v)` arising in a callee's body is
converted at the enclosing `CallExpr` into `Continue` with `v` as the
call's value (a call evaluation never yields `Return`). -/
theorem C2_control_flow_containment :
    (∀ (mxir : Mxir) (fuel : Nat) (loop_stmt : MxirLoop)
        (frames : List Frame) (out : EvalResult),
      Interpreter.eval_loop mxir fuel loop_stmt frames = some out →
        out.2.1 ≠ ControlFlow.Break) ∧
    (∀ (mxir : Mxir) (fuel : Nat) (body_ref : MxirNodeRef)
        (body_node : MxirNode) (frames : List Frame)
        (value : Option InterpreterValue) (frames2 : List Frame),
      Interpreter.node mxir body_ref = some body_node →
      Interpreter.eval_node_with_control_flow mxir fuel body_node frames =
        some (value, ControlFlow.Break, frames2) →
      Interpreter.eval_loop mxir (fuel + 2) (some body_ref) frames =
        some (none, ControlFlow.Continue, frames2)) ∧
    (∀ (mxir : Mxir) (fuel : Nat) (call_expr : MxirCallExpr)
        (frames : List Frame) (out : EvalResult),
      Interpreter.eval_call_expr mxir fuel call_expr frames = some out →
        ∀ v, out.2.1 ≠ ControlFlow.Return v) ∧
    (∀ (mxir : Mxir) (fuel : Nat) (fn_ref : MxirNodeRef)
        (args : List MxirNodeRef) (fn_node : MxirNode) (fn_decl : MxirFnDecl)
        (body_node : MxirNode) (frames : List Frame)
        (result v : Option InterpreterValue) (frames2 : List Frame),
      Interpreter.node mxir fn_ref = some fn_node →
      fn_node.data = MxirNodeData.FnDecl fn_decl →
      Interpreter.node mxir fn_decl.body = some body_node →
      Interpreter.eval_body mxir fuel body_node.self_ref (Frame.new :: frames) =
        some (result, ControlFlow.Return v, frames2) →
      Interpreter.eval_call_expr mxir (fuel + 1) ⟨fn_ref, args⟩ frames =
        some (v, ControlFlow.Continue, frames2.tail)) := by
  refine ⟨?_, ?_, ?_, ?_⟩
  · exact fun mxir fuel l frames out h => eval_loop_no_break mxir fuel l frames out h
  · intro mxir fuel body_ref body_node frames value frames2 h1 h2
    unfold Interpreter.eval_loop
    unfold Interpreter.eval_loop_go
    simp only [h1, h2]
  · exact fun mxir fuel ce frames out h => eval_call_expr_no_return mxir fuel ce frames out h
  · intro mxir fuel fn_ref args fn_node fn_decl body_node frames result v frames2 h1 h2 h3 h4
    unfold Interpreter.eval_call_expr
    simp only [h1, h2, h3, h4]

/-- C2 witness: concrete instances of all four parts — a loop whose body
breaks yields `Continue`, and a call whose body returns 42 yields the
value with `Continue`. -/
theorem C2_witness :
    (((none : Option InterpreterValue), ControlFlow.Continue,
        ([] : List Frame)).2.1 ≠ ControlFlow.Break) ∧
    (Interpreter.eval_loop mxirLoopBreak 3 (some 1) [] =
      some (none, ControlFlow.Continue, [])) ∧
    (∀ v, (some (InterpreterValue.Integer 42), ControlFlow.Continue,
        ([] : List Frame)).2.1 ≠ ControlFlow.Return v) ∧
    (Interpreter.eval_call_expr mxirCall42 11 ⟨0, []⟩ [] =
      some (some (InterpreterValue.Integer 42), ControlFlow.Continue, [])) :=
  ⟨C2_control_flow_containment.1 mxirLoopBreak 20 (some 1) []
      (none, ControlFlow.Continue, []) rfl,
    C2_control_flow_containment.2.1 mxirLoopBreak 1 1 ⟨1, 0, MxirNodeData.Break⟩
      [] none [] rfl rfl,
    C2_control_flow_containment.2.2.1 mxirCall42 20 ⟨0, []⟩ []
      (some (InterpreterValue.Integer 42), ControlFlow.Continue, []) rfl,
    C2_control_flow_containment.2.2.2 mxirCall42 10 0 []
      ⟨0, 0, MxirNodeData.FnDecl ⟨"main", 1⟩⟩ ⟨"main", 1⟩
      ⟨1, 0, MxirNodeData.Block [2]⟩ [] none (some (InterpreterValue.Integer 42))
      [Frame.new] rfl rfl rfl rfl⟩

/-- C10: evaluating any `CallExpr` restores the interpreter's frame stack
exactly — one frame is pushed on entry and popped before returning on
every path, so the caller's depth and bindings are unchanged. -/
theorem C10_call_expr_frame_neutral (mxir : Mxir) (fuel : Nat)
    (call_expr : MxirCallExpr) (frames : List Frame) (out : EvalResult)
    (h : Interpreter.eval_call_expr mxir fuel call_expr frames = some out) :
    out.2.2 = frames :=
  (interp_frames fuel).2.2.1 mxir call_expr frames out h

/-- C10 witness: calling `main` from a caller frame holding a binding
returns with that frame intact. -/
theorem C10_witness :
    (Interpreter.eval_call_expr mxirCall42 20 ⟨0, []⟩
        [⟨[(("caller"), InterpreterValue.Integer 7)]⟩] =
      some (some (InterpreterValue.Integer 42), ControlFlow.Continue,
        [⟨[(("caller"), InterpreterValue.Integer 7)]⟩])) ∧
    ((some (InterpreterValue.Integer 42), ControlFlow.Continue,
        ([⟨[(("caller"), InterpreterValue.Integer 7)]⟩] : List Frame)).2.2 =
      [⟨[(("caller"), InterpreterValue.Integer 7)]⟩]) :=
  ⟨rfl, C10_call_expr_frame_neutral mxirCall42 20 ⟨0, []⟩ _ _ rfl⟩

/-! ## Compile-time evaluation is MXIR-silent (C8) -/

theorem report_mxir {ctx : SemaCtx} {s : SemaState} {node_ref : AstNodeRef}
    {k : DiagnosticKind} {s2 : SemaState}
    (h : Sema.report ctx s node_ref k = some s2) : s2.mxir = s.mxir := by
  unfold Sema.report at h
  cases hn : Sema.node ctx node_ref with
  | none => rw [hn] at h; cases h
  | some n =>
    rw [hn] at h
    cases h
    rfl

theorem report_env {ctx : SemaCtx} {s : SemaState} {node_ref : AstNodeRef}
    {k : DiagnosticKind} {s2 : SemaState}
    (h : Sema.report ctx s node_ref k = some s2) : s2.env = s.env := by
  unfold Sema.report at h
  cases hn : Sema.node ctx node_ref with
  | none => rw [hn] at h; cases h
  | some n =>
    rw [hn] at h
    cases h
    rfl

/-- The compile-time evaluation cluster never touches the MXIR vector:
one induction on fuel covering all six mutually recursive functions. -/
theorem ct_mxir (fuel : Nat) :
    (∀ ctx r s out, Sema.comptime_eval_comptime_expr ctx fuel r s = some out →
      out.2.mxir = s.mxir) ∧
    (∀ ctx r s out, Sema.comptime_eval_fn_proto ctx fuel r s = some out →
      out.2.mxir = s.mxir) ∧
    (∀ ctx r f s out, Sema.bind_comptime_params ctx fuel r f s = some out →
      out.2.mxir = s.mxir) ∧
    (∀ ctx ps names acc s out,
      Sema.bind_comptime_params_loop ctx fuel ps names acc s = some out →
        out.2.mxir = s.mxir) ∧
    (∀ ctx r f s out, Sema.extract_params ctx fuel r f s = some out →
      out.2.mxir = s.mxir) ∧
    (∀ ctx ps names acc s out,
      Sema.extract_params_loop ctx fuel ps names acc s = some out →
        out.2.mxir = s.mxir) := by
  induction fuel with
  | zero =>
    refine ⟨?_, ?_, ?_, ?_, ?_, ?_⟩ <;>
      · intros
        rename_i h
        exact Option.noConfusion h
  | succ fuel ih =>
    obtain ⟨ihEval, ihProto, ihBind, ihBindLoop, ihExtract, ihExtractLoop⟩ := ih
    refine ⟨?_, ?_, ?_, ?_, ?_, ?_⟩
    -- comptime_eval_comptime_expr
    · intro ctx r s out h
      unfold Sema.comptime_eval_comptime_expr at h
      split at h
      · exact absurd h (by simp)
      · split at h
        · split at h
          · exact absurd h (by simp)
          · split at h
            · exact absurd h (by simp)
            · split at h
              · split at h
                · exact absurd h (by simp)
                · cases h
                  rfl
              · cases h
                rfl
              · simp only [] at h
                split at h
                · cases h
                  rfl
                · split at h
                  · exact absurd h (by simp)
                  · next s2 hrep =>
                      cases h
                      exact report_mxir hrep
              · exact ihProto _ _ _ _ h
              · exact absurd h (by simp)
        · exact absurd h (by simp)
    -- comptime_eval_fn_proto
    · intro ctx r s out h
      unfold Sema.comptime_eval_fn_proto at h
      simp only [] at h
      split at h
      · exact absurd h (by simp)
      · split at h
        · exact absurd h (by simp)
        · next cp s2 hbind =>
            split at h
            · exact absurd h (by simp)
            · next ps s3 hext =>
                split at h
                · exact absurd h (by simp)
                · split at h
                  · exact absurd h (by simp)
                  · next rt s4 hret =>
                      cases h
                      have e1 := ihBind _ _ _ _ _ hbind
                      have e2 := ihExtract _ _ _ _ _ hext
                      have e3 := ihEval _ _ _ _ hret
                      simp only at e1
                      exact e3.trans (e2.trans e1)
    -- bind_comptime_params
    · intro ctx r f s out h
      unfold Sema.bind_comptime_params at h
      split at h
      · exact absurd h (by simp)
      · split at h
        · cases h
          rfl
        · split at h
          · exact absurd h (by simp)
          · exact ihBindLoop _ _ _ _ _ _ h
    -- bind_comptime_params_loop
    · intro ctx ps names acc s out h
      unfold Sema.bind_comptime_params_loop at h
      split at h
      · cases h
        rfl
      · simp only [] at h
        split at h
        · exact absurd h (by simp)
        · split at h
          · exact absurd h (by simp)
          · split at h
            · exact absurd h (by simp)
            · split at h
              · exact absurd h (by simp)
              · next names2 s2 hstep =>
                  have e1 : s2.mxir = s.mxir := by
                    revert hstep
                    split
                    · intro hstep
                      cases hrep : Sema.report ctx s _
                          DiagnosticKind.DuplicateParamName with
                      | none => rw [hrep] at hstep; cases hstep
                      | some s3 =>
                        rw [hrep] at hstep
                        cases hstep
                        exact report_mxir hrep
                    · intro hstep
                      cases hstep
                      rfl
                  split at h
                  · exact absurd h (by simp)
                  · split at h
                    · exact absurd h (by simp)
                    · next ty s3 hty =>
                        have e2 := ihEval _ _ _ _ hty
                        have e3 := ihBindLoop _ _ _ _ _ _ h
                        refine e3.trans ?_
                        refine Eq.trans ?_ (e2.trans e1)
                        split
                        · rfl
                        · rfl
    -- extract_params
    · intro ctx r f s out h
      unfold Sema.extract_params at h
      split at h
      · exact absurd h (by simp)
      · split at h
        · cases h
          rfl
        · split at h
          · exact absurd h (by simp)
          · exact ihExtractLoop _ _ _ _ _ _ h
    -- extract_params_loop
    · intro ctx ps names acc s out h
      unfold Sema.extract_params_loop at h
      split at h
      · cases h
        rfl
      · simp only [] at h
        split at h
        · exact absurd h (by simp)
        · split at h
          · exact absurd h (by simp)
          · split at h
            · exact absurd h (by simp)
            · split at h
              · exact absurd h (by simp)
              · next names2 s2 hstep =>
                  have e1 : s2.mxir = s.mxir := by
                    revert hstep
                    split
                    · intro hstep
                      cases hrep : Sema.report ctx s _
                          DiagnosticKind.DuplicateParamName with
                      | none => rw [hrep] at hstep; cases hstep
                      | some s3 =>
                        rw [hrep] at hstep
                        cases hstep
                        exact report_mxir hrep
                    · intro hstep
                      cases hstep
                      rfl
                  split at h
                  · exact absurd h (by simp)
                  · split at h
                    · exact absurd h (by simp)
                    · next ty s3 hty =>
                        have e2 := ihEval _ _ _ _ hty
                        have e3 := ihExtractLoop _ _ _ _ _ _ h
                        exact e3.trans (e2.trans e1)

/-- C8: compile-time evaluation (`comptime_eval_comptime_expr`) never
emits an MXIR node — for every AST node and every state, including
`fn_proto` expressions, the MXIR vector after evaluation is exactly the
MXIR vector before. -/
theorem C8_ct_eval_is_mxir_silent (ctx : SemaCtx) (fuel : Nat)
    (node_ref : AstNodeRef) (s : SemaState) (out : ComptimeValue × SemaState)
    (h : Sema.comptime_eval_comptime_expr ctx fuel node_ref s = some out) :
    out.2.mxir = s.mxir :=
  (ct_mxir fuel).1 ctx node_ref s out h

/-- C8 witness: evaluating a concrete `fn_proto` comptime expression from
a state that already owns one MXIR node leaves the vector untouched. -/
theorem C8_witness :
    Sema.comptime_eval_comptime_expr ⟨("t.mx"), astCtFnProto⟩ 10 0 sCt =
        some (ComptimeValue.FnProto ⟨[], [], ComptimeValue.ComptimeInt 7⟩, sCt2) ∧
      (ComptimeValue.FnProto ⟨[], [], ComptimeValue.ComptimeInt 7⟩,
        sCt2).2.mxir = sCt.mxir :=
  ⟨rfl, C8_ct_eval_is_mxir_silent ⟨("t.mx"), astCtFnProto⟩ 10 0 sCt _ rfl⟩

/-- C6: analyzing a program whose root source-file node has no children
produces exactly one diagnostic, `MissingEntrypointFunction`, at the root
node's range. -/
theorem C6_empty_program_one_diagnostic (path : String) (ast : Ast)
    (root : AstNode) (fuel : Nat) (out : Mxir × List Diagnostic)
    (hroot : ast[0]? = some root) (hchild : root.children = [])
    (h : Sema.analyze ⟨path, ast⟩ fuel = some out) :
    out.2 = [⟨path, root.range, DiagnosticKind.MissingEntrypointFunction⟩] := by
  unfold Sema.analyze at h
  cases hasf : Sema.analyze_source_file ⟨path, ast⟩ fuel Sema.initState with
  | none => rw [hasf] at h; cases h
  | some s2 =>
    rw [hasf] at h
    cases h
    unfold Sema.analyze_source_file at hasf
    simp only [] at hasf
    have hnode : Sema.node ⟨path, ast⟩ 0 = some root := by
      simp [Sema.node, hroot]
    rw [hnode] at hasf
    simp only [] at hasf
    match fuel, hasf with
    | 0, hasf => exact absurd hasf (by simp [Sema.analyze_body])
    | fuel + 1, hasf =>
      unfold Sema.analyze_body at hasf
      rw [hnode] at hasf
      simp only [] at hasf
      rw [hchild] at hasf
      match fuel, hasf with
      | 0, hasf => exact absurd hasf (by simp [Sema.analyze_body_loop])
      | fuel + 1, hasf =>
        unfold Sema.analyze_body_loop at hasf
        simp only [Sema.emit, Sema.initState, ComptimeEnv.push_scope,
          SymbolTableSet.push_table, ComptimeEnv.get, SymbolTableSet.get,
          SymbolTableSet.current_table, SymbolTableSet.current_table_ref,
          ComptimeEnv.new, SymbolTableSet.new, Sema.report, hnode,
          mapGet, ComptimeEnv.pop_scope, SymbolTableSet.pop_table] at hasf
        cases hasf
        rfl

/-- C6 witness: the concrete empty program yields that one diagnostic. -/
theorem C6_witness :
    (([⟨0, 0, MxirNodeData.SourceFile []⟩],
        [⟨("t.mx"), ⟨⟨0, 0⟩, ⟨0, 1⟩⟩, DiagnosticKind.MissingEntrypointFunction⟩]) :
          Mxir × List Diagnostic).2 =
      [⟨("t.mx"), (mkNode 0 ("source_file") "" [] []).range,
        DiagnosticKind.MissingEntrypointFunction⟩] :=
  C6_empty_program_one_diagnostic ("t.mx") astEmpty
    (mkNode 0 ("source_file") "" [] []) 5 _ rfl rfl rfl

/-- C4 counterexample: in `fn main(): 0 { var x = y; }` the name `y` is
unbound where `analyze_expr` lowers it, yet `Sema::analyze` returns *zero*
diagnostics — no `SymbolNotFound` is reported; the node is lowered to
`Nop("undefined variable")` (MXIR slot 2, from AST node 9). -/
theorem C4_counterexample :
    (Sema.analyze ⟨("t.mx"), astMainVarUndef⟩ 30).map (fun p => p.2) = some [] ∧
      (Sema.analyze ⟨("t.mx"), astMainVarUndef⟩ 30).bind (fun p => p.1[2]?) =
        some ⟨2, 9, MxirNodeData.Nop ("undefined variable")⟩ :=
  ⟨rfl, rfl⟩

/-- C4 (amended): lowering a `variable_expr` whose name no scope on the
active chain binds emits `Nop("undefined variable")` and reports nothing —
the diagnostics list is left untouched (`SymbolNotFound` is reported only
by compile-time evaluation of a `variable_expr`). -/
theorem C4_unbound_variable_expr_silent_nop (ctx : SemaCtx)
    (node_ref : AstNodeRef) (s : SemaState) (n : AstNode)
    (hnode : Sema.node ctx node_ref = some n)
    (hunbound : ComptimeEnv.lookup s.env n.text = none) :
    Sema.analyze_variable_expr ctx node_ref s =
      some (s.mxir.length,
        { s with mxir := s.mxir ++ [⟨s.mxir.length, node_ref,
            MxirNodeData.Nop ("undefined variable")⟩] }) := by
  unfold Sema.analyze_variable_expr
  rw [hnode]
  simp only []
  rw [hunbound]
  rfl

/-- C4 witness for the amended statement, at a concrete unbound
`variable_expr`. -/
theorem C4_witness :
    Sema.analyze_variable_expr ⟨("t.mx"), astMainVarUndef⟩ 9 sCt =
      some (sCt.mxir.length,
        { sCt with mxir := sCt.mxir ++ [⟨sCt.mxir.length, 9,
            MxirNodeData.Nop ("undefined variable")⟩] }) :=
  C4_unbound_variable_expr_silent_nop ⟨("t.mx"), astMainVarUndef⟩ 9 sCt
    (mkNode 9 ("variable_expr") ("y") [] []) rfl rfl

/-- C9 counterexample: analyzing `fn main(comptime T: 42)(): 0 { }` — an
AST on which the comptime-argument-count check fails for the synthesized
entry call — leaves one scope on the active stack when `analyze` returns;
the same pipeline on the comptime-parameter-free `main` ends with an empty
stack. -/
theorem C9_counterexample :
    (Sema.analyze_source_file ⟨("t.mx"), astMainComptime⟩ 30 Sema.initState).map
        (fun s => s.env.stack.length) = some 1 ∧
      (Sema.analyze_source_file ⟨("t.mx"), astMainOnly⟩ 30 Sema.initState).map
        (fun s => s.env.stack.length) = some 0 :=
  ⟨rfl, rfl⟩

/-- C9 (amended): `analyze_resolved_fn_call` pushes a scope for every
`FnDecl` callee, and on the error path taken when the comptime parameter
count differs from the comptime argument count it returns *without
popping*: the result state's active stack is the freshly pushed table on
top of the caller's stack (and the path reports `InvalidFunctionCall` and
emits a `Nop`).  Scope pushes and pops therefore balance only on inputs
that never take this path. -/
theorem C9_mismatch_path_leaks_scope (ctx : SemaCtx) (fuel : Nat)
    (node_ref : AstNodeRef) (fn_decl : FnDeclG ComptimeValue)
    (comptime_args args : List ComptimeValue)
    (s : SemaState) (n : AstNode)
    (hnode : Sema.node ctx node_ref = some n)
    (hmismatch : fn_decl.comptime_params.length ≠ comptime_args.length) :
    Sema.analyze_resolved_fn_call ctx (fuel + 1) node_ref
        (ComptimeValue.FnDecl fn_decl) comptime_args args s =
      some (s.mxir.length,
        { env := ⟨s.env.tables ++ [⟨n.range, s.env.stack.head?, []⟩],
            s.env.tables.length :: s.env.stack⟩,
          mxir := s.mxir ++ [⟨s.mxir.length, node_ref,
            MxirNodeData.Nop ("invalid function call")⟩],
          diagnostics := s.diagnostics ++
            [⟨ctx.path, n.range, DiagnosticKind.InvalidFunctionCall⟩] }) := by
  unfold Sema.analyze_resolved_fn_call
  have hrange : Sema.node_range ctx node_ref = some n.range := by
    simp [Sema.node_range, hnode]
  rw [hrange]
  simp only []
  rw [if_pos hmismatch]
  unfold Sema.report
  rw [hnode]
  simp only []
  unfold Sema.emit_nop Sema.emit
  simp [ComptimeEnv.push_scope, SymbolTableSet.push_table,
    SymbolTableSet.current_table_ref]

/-- C9 witness: the mismatch path at a concrete one-comptime-parameter
`main` called with zero comptime arguments. -/
theorem C9_witness :
    Sema.analyze_resolved_fn_call ⟨("t.mx"), astMainOnly⟩ 10 1
        (ComptimeValue.FnDecl ⟨("main"), [⟨("T"), ComptimeValue.TypeMarker⟩], [],
          ComptimeValue.ComptimeInt 0, 5⟩) [] [] Sema.initState =
      some (0,
        { env := ⟨[⟨⟨⟨1, 0⟩, ⟨1, 1⟩⟩, none, []⟩], [0]⟩,
          mxir := [⟨0, 1, MxirNodeData.Nop ("invalid function call")⟩],
          diagnostics := [⟨("t.mx"), ⟨⟨1, 0⟩, ⟨1, 1⟩⟩,
            DiagnosticKind.InvalidFunctionCall⟩] }) :=
  C9_mismatch_path_leaks_scope ⟨("t.mx"), astMainOnly⟩ 9 1
    ⟨("main"), [⟨("T"), ComptimeValue.TypeMarker⟩], [],
      ComptimeValue.ComptimeInt 0, 5⟩ [] [] Sema.initState
    (mkNode 1 ("fn_decl") "" [("proto", 2), ("body", 5)] []) rfl (by decide)

/-- C1 counterexample: `fn main(comptime T: 42)(): 0 { }` is a program
whose only top-level declaration is a single `main` (declaring a comptime
parameter) — and `Sema::analyze` reports `InvalidFunctionCall`, because
the synthesized entry call passes zero comptime arguments. -/
theorem C1_counterexample :
    (Sema.analyze ⟨("t.mx"), astMainComptime⟩ 30).map
        (fun p => p.2.map (fun d => d.kind)) =
      some [DiagnosticKind.InvalidFunctionCall] := rfl

/-- C1 (amended): for every parsed program of the canonical main-only
shape `mkMainOnlyAst` — a single comptime-parameter-free `fn main` with an
empty body and nothing else, with arbitrary path, ranges, texts and
return-type literal — `Sema::analyze` returns zero diagnostics. -/
theorem C1_main_only_zero_diagnostics (path : String)
    (r0 r1 r2 r3 r4 r5 r6 : Range) (t0 t1 t2 t5 t6 retText : String)
    (v : Int) (fuel : Nat) (out : Mxir × List Diagnostic)
    (hparse : parseI128 retText = some v)
    (h : Sema.analyze
      ⟨path, mkMainOnlyAst r0 r1 r2 r3 r4 r5 r6 t0 t1 t2 t5 t6 retText⟩
      fuel = some out) :
    out.2 = [] := by
  unfold Sema.analyze at h
  cases hasf : Sema.analyze_source_file
      ⟨path, mkMainOnlyAst r0 r1 r2 r3 r4 r5 r6 t0 t1 t2 t5 t6 retText⟩
      fuel Sema.initState with
  | none => rw [hasf] at h; cases h
  | some s2 =>
    rw [hasf] at h
    cases h
    match fuel, hasf with
    | 0, hasf => exact absurd hasf (by simp [Sema.analyze_source_file, Sema.analyze_body,
        Sema.analyze_body_loop, Sema.analyze_node, Sema.analyze_fn_decl,
        Sema.bind_comptime_params, Sema.extract_params,
        Sema.comptime_eval_comptime_expr, Sema.analyze_resolved_fn_call,
        Sema.analyze_block, Sema.node, Sema.node_range, Sema.emit,
        Sema.emit_nop, Sema.report, Sema.initState, mkMainOnlyAst, mapGet,
        ComptimeEnv.push_scope, ComptimeEnv.pop_scope, ComptimeEnv.get,
        ComptimeEnv.lookup, ComptimeEnv.declare_fn, ComptimeEnv.new,
        SymbolTableSet.push_table, SymbolTableSet.pop_table,
        SymbolTableSet.get, SymbolTableSet.current_table,
        SymbolTableSet.current_table_ref, SymbolTableSet.insert,
        SymbolTableSet.new, hparse])
    | 1, hasf => exact absurd hasf (by simp [Sema.analyze_source_file, Sema.analyze_body,
        Sema.analyze_body_loop, Sema.analyze_node, Sema.analyze_fn_decl,
        Sema.bind_comptime_params, Sema.extract_params,
        Sema.comptime_eval_comptime_expr, Sema.analyze_resolved_fn_call,
        Sema.analyze_block, Sema.node, Sema.node_range, Sema.emit,
        Sema.emit_nop, Sema.report, Sema.initState, mkMainOnlyAst, mapGet,
        ComptimeEnv.push_scope, ComptimeEnv.pop_scope, ComptimeEnv.get,
        ComptimeEnv.lookup, ComptimeEnv.declare_fn, ComptimeEnv.new,
        SymbolTableSet.push_table, SymbolTableSet.pop_table,
        SymbolTableSet.get, SymbolTableSet.current_table,
        SymbolTableSet.current_table_ref, SymbolTableSet.insert,
        SymbolTableSet.new, hparse])
    | 2, hasf => exact absurd hasf (by simp [Sema.analyze_source_file, Sema.analyze_body,
        Sema.analyze_body_loop, Sema.analyze_node, Sema.analyze_fn_decl,
        Sema.bind_comptime_params, Sema.extract_params,
        Sema.comptime_eval_comptime_expr, Sema.analyze_resolved_fn_call,
        Sema.analyze_block, Sema.node, Sema.node_range, Sema.emit,
        Sema.emit_nop, Sema.report, Sema.initState, mkMainOnlyAst, mapGet,
        ComptimeEnv.push_scope, ComptimeEnv.pop_scope, ComptimeEnv.get,
        ComptimeEnv.lookup, ComptimeEnv.declare_fn, ComptimeEnv.new,
        SymbolTableSet.push_table, SymbolTableSet.pop_table,
        SymbolTableSet.get, SymbolTableSet.current_table,
        SymbolTableSet.current_table_ref, SymbolTableSet.insert,
        SymbolTableSet.new, hparse])
    | 3, hasf => exact absurd hasf (by simp [Sema.analyze_source_file, Sema.analyze_body,
        Sema.analyze_body_loop, Sema.analyze_node, Sema.analyze_fn_decl,
        Sema.bind_comptime_params, Sema.extract_params,
        Sema.comptime_eval_comptime_expr, Sema.analyze_resolved_fn_call,
        Sema.analyze_block, Sema.node, Sema.node_range, Sema.emit,
        Sema.emit_nop, Sema.report, Sema.initState, mkMainOnlyAst, mapGet,
        ComptimeEnv.push_scope, ComptimeEnv.pop_scope, ComptimeEnv.get,
        ComptimeEnv.lookup, ComptimeEnv.declare_fn, ComptimeEnv.new,
        SymbolTableSet.push_table, SymbolTableSet.pop_table,
        SymbolTableSet.get, SymbolTableSet.current_table,
        SymbolTableSet.current_table_ref, SymbolTableSet.insert,
        SymbolTableSet.new, hparse])
    | 4, hasf => exact absurd hasf (by simp [Sema.analyze_source_file, Sema.analyze_body,
        Sema.analyze_body_loop, Sema.analyze_node, Sema.analyze_fn_decl,
        Sema.bind_comptime_params, Sema.extract_params,
        Sema.comptime_eval_comptime_expr, Sema.analyze_resolved_fn_call,
        Sema.analyze_block, Sema.node, Sema.node_range, Sema.emit,
        Sema.emit_nop, Sema.report, Sema.initState, mkMainOnlyAst, mapGet,
        ComptimeEnv.push_scope, ComptimeEnv.pop_scope, ComptimeEnv.get,
        ComptimeEnv.lookup, ComptimeEnv.declare_fn, ComptimeEnv.new,
        SymbolTableSet.push_table, SymbolTableSet.pop_table,
        SymbolTableSet.get, SymbolTableSet.current_table,
        SymbolTableSet.current_table_ref, SymbolTableSet.insert,
        SymbolTableSet.new, hparse])
    | (e + 5), hasf =>
      simp [Sema.analyze_source_file, Sema.analyze_body,
        Sema.analyze_body_loop, Sema.analyze_node, Sema.analyze_fn_decl,
        Sema.bind_comptime_params, Sema.extract_params,
        Sema.comptime_eval_comptime_expr, Sema.analyze_resolved_fn_call,
        Sema.analyze_block, Sema.node, Sema.node_range, Sema.emit,
        Sema.emit_nop, Sema.report, Sema.initState, mkMainOnlyAst, mapGet,
        ComptimeEnv.push_scope, ComptimeEnv.pop_scope, ComptimeEnv.get,
        ComptimeEnv.lookup, ComptimeEnv.declare_fn, ComptimeEnv.new,
        SymbolTableSet.push_table, SymbolTableSet.pop_table,
        SymbolTableSet.get, SymbolTableSet.current_table,
        SymbolTableSet.current_table_ref, SymbolTableSet.insert,
        SymbolTableSet.new, hparse] at hasf
      cases hasf
      rfl

/-- C1 witness: the concrete `fn main(): 0 { }` instance of the family
analyzes to zero diagnostics (with the expected MXIR). -/
theorem C1_witness :
    Sema.analyze ⟨("t.mx"), mkMainOnlyAst ⟨⟨0, 0⟩, ⟨0, 1⟩⟩ ⟨⟨1, 0⟩, ⟨1, 1⟩⟩
          ⟨⟨2, 0⟩, ⟨2, 1⟩⟩ ⟨⟨3, 0⟩, ⟨3, 1⟩⟩ ⟨⟨4, 0⟩, ⟨4, 1⟩⟩ ⟨⟨5, 0⟩, ⟨5, 1⟩⟩
          ⟨⟨6, 0⟩, ⟨6, 1⟩⟩ "" "" "" "" ("0") ("0")⟩ 30 =
        some ([⟨0, 0, MxirNodeData.SourceFile [1, 3]⟩,
            ⟨1, 1, MxirNodeData.Nop ("fn_decl")⟩,
            ⟨2, 5, MxirNodeData.Block []⟩,
            ⟨3, 0, MxirNodeData.FnDecl ⟨("main"), 2⟩⟩], []) ∧
      (([⟨0, 0, MxirNodeData.SourceFile [1, 3]⟩,
            ⟨1, 1, MxirNodeData.Nop ("fn_decl")⟩,
            ⟨2, 5, MxirNodeData.Block []⟩,
            ⟨3, 0, MxirNodeData.FnDecl ⟨("main"), 2⟩⟩], ([] : List Diagnostic)) :
          Mxir × List Diagnostic).2 = [] :=
  ⟨rfl,
    C1_main_only_zero_diagnostics ("t.mx") ⟨⟨0, 0⟩, ⟨0, 1⟩⟩ ⟨⟨1, 0⟩, ⟨1, 1⟩⟩
      ⟨⟨2, 0⟩, ⟨2, 1⟩⟩ ⟨⟨3, 0⟩, ⟨3, 1⟩⟩ ⟨⟨4, 0⟩, ⟨4, 1⟩⟩ ⟨⟨5, 0⟩, ⟨5, 1⟩⟩
      ⟨⟨6, 0⟩, ⟨6, 1⟩⟩ "" "" "" "" ("0") ("0") 0 30 _ rfl rfl⟩

/-! ## MXIR reference monotonicity (C3) -/

theorem mxirStep_refl (s : SemaState) : MxirStep s s :=
  ⟨⟨[], by simp⟩, fun h => h⟩

theorem mxirStep_of_mxir_eq {s s2 : SemaState} (h : s2.mxir = s.mxir) :
    MxirStep s s2 :=
  ⟨⟨[], by simp [h]⟩, fun hi => h ▸ hi⟩

theorem mxirStep_trans {s1 s2 s3 : SemaState} (h1 : MxirStep s1 s2)
    (h2 : MxirStep s2 s3) : MxirStep s1 s3 := by
  obtain ⟨⟨e1, he1⟩, hp1⟩ := h1
  obtain ⟨⟨e2, he2⟩, hp2⟩ := h2
  exact ⟨⟨e1 ++ e2, by rw [he2, he1, List.append_assoc]⟩,
    fun hi => hp2 (hp1 hi)⟩

theorem mxirStep_len {s s2 : SemaState} (h : MxirStep s s2) :
    s.mxir.length ≤ s2.mxir.length := by
  obtain ⟨⟨e, he⟩, _⟩ := h
  simp [he]

theorem emit_mxir (s : SemaState) (a : AstNodeRef) (d : MxirNodeData) :
    (Sema.emit s a d).2.mxir =
      s.mxir ++ [⟨s.mxir.length, a, d⟩] := rfl

theorem emit_ret (s : SemaState) (a : AstNodeRef) (d : MxirNodeData) :
    (Sema.emit s a d).1 = s.mxir.length := rfl

theorem mxirInv_append {m : Mxir} (hinv : MxirInv m) (a : AstNodeRef)
    (d : MxirNodeData) (hrefs : ∀ r ∈ payloadRefs d, r < m.length) :
    MxirInv (m ++ [⟨m.length, a, d⟩]) := by
  intro i node hget
  by_cases hi : i < m.length
  · rw [List.getElem?_append_left hi] at hget
    exact hinv i node hget
  · by_cases hieq : i = m.length
    · subst hieq
      rw [List.getElem?_concat_length] at hget
      cases hget
      refine ⟨rfl, fun hne r hr => hrefs r hr⟩
    · have h1 : m.length ≤ i := Nat.le_of_not_lt hi
      have h2 : m.length < i := Nat.lt_of_le_of_ne h1 (fun e => hieq e.symm)
      have hge : (m ++ [(⟨m.length, a, d⟩ : MxirNode)]).length ≤ i := by
        simp only [List.length_append, List.length_cons, List.length_nil]
        exact h2
      rw [List.getElem?_eq_none hge] at hget
      cases hget

theorem emit_ok (s : SemaState) (a : AstNodeRef) (d : MxirNodeData)
    (hrefs : MxirInv s.mxir → ∀ r ∈ payloadRefs d, r < s.mxir.length) :
    MxirStep s (Sema.emit s a d).2 ∧
      (Sema.emit s a d).1 < (Sema.emit s a d).2.mxir.length := by
  refine ⟨⟨⟨[⟨s.mxir.length, a, d⟩], rfl⟩, fun hi => ?_⟩, ?_⟩
  · exact mxirInv_append hi a d (hrefs hi)
  · rw [emit_ret, emit_mxir]
    simp

theorem emit_nop_ok (s : SemaState) (a : AstNodeRef) (msg : String) :
    MxirStep s (Sema.emit_nop s a msg).2 ∧
      (Sema.emit_nop s a msg).1 < (Sema.emit_nop s a msg).2.mxir.length :=
  emit_ok s a (MxirNodeData.Nop msg) (fun _ r hr => by simp [payloadRefs] at hr)

theorem analyze_comptime_value_no_refs {v : ComptimeValue} {d : MxirNodeData}
    (h : Sema.analyze_comptime_value v = some d) : payloadRefs d = [] := by
  unfold Sema.analyze_comptime_value at h
  split at h <;> first
    | (cases h; rfl)
    | cases h

theorem analyze_variable_expr_ok {ctx : SemaCtx} {r : AstNodeRef}
    {s : SemaState} {out : MxirNodeRef × SemaState}
    (h : Sema.analyze_variable_expr ctx r s = some out) :
    MxirStep s out.2 ∧ out.1 < out.2.mxir.length := by
  unfold Sema.analyze_variable_expr at h
  split at h
  · exact absurd h (by simp)
  · simp only [] at h
    split at h
    · split at h
      · next d hd =>
          cases h
          exact emit_ok s r d (fun _ rr hrr => by
            rw [analyze_comptime_value_no_refs hd] at hrr
            cases hrr)
      · cases h
        exact emit_nop_ok _ _ _
    · cases h
      exact emit_nop_ok _ _ _

theorem analyze_int_literal_ok {ctx : SemaCtx} {r : AstNodeRef}
    {s : SemaState} {out : MxirNodeRef × SemaState}
    (h : Sema.analyze_int_literal ctx r s = some out) :
    MxirStep s out.2 ∧ out.1 < out.2.mxir.length := by
  unfold Sema.analyze_int_literal at h
  split at h
  · exact absurd h (by simp)
  · split at h
    · exact absurd h (by simp)
    · cases h
      exact emit_ok _ _ _ (fun _ rr hrr => by simp [payloadRefs] at hrr)

theorem analyze_string_literal_ok {ctx : SemaCtx} {r : AstNodeRef}
    {s : SemaState} {out : MxirNodeRef × SemaState}
    (h : Sema.analyze_string_literal ctx r s = some out) :
    MxirStep s out.2 ∧ out.1 < out.2.mxir.length := by
  unfold Sema.analyze_string_literal at h
  split at h
  · exact absurd h (by simp)
  · cases h
    exact emit_ok _ _ _ (fun _ rr hrr => by simp [payloadRefs] at hrr)

/-- The MXIR discipline of the whole lowering cluster, by one induction on
fuel: every analysis function only appends to the MXIR vector, preserves
the monotonicity invariant, and returns references below the new length. -/
theorem analyze_mxir (fuel : Nat) :
    (∀ ctx r s out, Sema.analyze_node ctx fuel r s = some out →
      MxirStep s out.2 ∧ out.1 < out.2.mxir.length) ∧
    (∀ ctx r s out, Sema.analyze_fn_decl ctx fuel r s = some out →
      MxirStep s out.2 ∧ out.1 < out.2.mxir.length) ∧
    (∀ ctx r s out, Sema.analyze_const_decl ctx fuel r s = some out →
      MxirStep s out.2 ∧ out.1 < out.2.mxir.length) ∧
    (∀ ctx r s out, Sema.analyze_var_decl ctx fuel r s = some out →
      MxirStep s out.2 ∧ out.1 < out.2.mxir.length) ∧
    (∀ ctx r s out, Sema.analyze_block ctx fuel r s = some out →
      MxirStep s out.2 ∧ out.1 < out.2.mxir.length) ∧
    (∀ ctx r s out, Sema.analyze_body ctx fuel r s = some out →
      MxirStep s out.2 ∧ ∀ rr ∈ out.1, rr < out.2.mxir.length) ∧
    (∀ ctx cs s out, Sema.analyze_body_loop ctx fuel cs s = some out →
      MxirStep s out.2 ∧ ∀ rr ∈ out.1, rr < out.2.mxir.length) ∧
    (∀ ctx r s out, Sema.analyze_expr_stmt ctx fuel r s = some out →
      MxirStep s out.2 ∧ out.1 < out.2.mxir.length) ∧
    (∀ ctx r s out, Sema.analyze_return_stmt ctx fuel r s = some out →
      MxirStep s out.2 ∧ out.1 < out.2.mxir.length) ∧
    (∀ ctx r s out, Sema.analyze_expr ctx fuel r s = some out →
      MxirStep s out.2 ∧ out.1 < out.2.mxir.length) ∧
    (∀ ctx r s out, Sema.analyze_call_expr ctx fuel r s = some out →
      MxirStep s out.2 ∧ out.1 < out.2.mxir.length) ∧
    (∀ ctx r b ca a s out,
      Sema.analyze_resolved_fn_call ctx fuel r b ca a s = some out →
        MxirStep s out.2 ∧ out.1 < out.2.mxir.length) := by
  induction fuel with
  | zero =>
    refine ⟨?_, ?_, ?_, ?_, ?_, ?_, ?_, ?_, ?_, ?_, ?_, ?_⟩ <;>
      · intros
        rename_i h
        exact Option.noConfusion h
  | succ fuel ih =>
    obtain ⟨ihNode, ihFnDecl, ihConstDecl, ihVarDecl, ihBlock, ihBody,
      ihBodyLoop, ihExprStmt, ihRetStmt, ihExpr, ihCallExpr, ihRfc⟩ := ih
    refine ⟨?_, ?_, ?_, ?_, ?_, ?_, ?_, ?_, ?_, ?_, ?_, ?_⟩
    -- analyze_node
    · intro ctx r s out h
      unfold Sema.analyze_node at h
      split at h
      · exact absurd h (by simp)
      · split at h
        · exact ihFnDecl _ _ _ _ h
        · exact ihConstDecl _ _ _ _ h
        · exact ihVarDecl _ _ _ _ h
        · exact ihBlock _ _ _ _ h
        · exact ihExprStmt _ _ _ _ h
        · exact ihRetStmt _ _ _ _ h
        · cases h
          exact emit_nop_ok _ _ _
    -- analyze_fn_decl
    · intro ctx r s out h
      unfold Sema.analyze_fn_decl at h
      simp only [] at h
      split at h
      · exact absurd h (by simp)
      · split at h
        · exact absurd h (by simp)
        · split at h
          · exact absurd h (by simp)
          · split at h
            · exact absurd h (by simp)
            · next name s1 hname =>
                have e1 : s1.mxir = s.mxir := by
                  split at hname
                  · split at hname
                    · exact absurd hname (by simp)
                    · cases hname
                      rfl
                  · cases hrep : Sema.report ctx s r
                        DiagnosticKind.MissingFunctionName with
                    | none => rw [hrep] at hname; cases hname
                    | some sr =>
                      rw [hrep] at hname
                      cases hname
                      exact report_mxir hrep
                split at h
                · exact absurd h (by simp)
                · next cp s3 hbind =>
                    have e3 : s3.mxir = s1.mxir :=
                      (ct_mxir fuel).2.2.1 _ _ _ _ _ hbind
                    split at h
                    · exact absurd h (by simp)
                    · next ps s4 hext =>
                        have e4 : s4.mxir = s3.mxir :=
                          (ct_mxir fuel).2.2.2.2.1 _ _ _ _ _ hext
                        split at h
                        · exact absurd h (by simp)
                        · split at h
                          · exact absurd h (by simp)
                          · next rt s5 hret =>
                              have e5 : s5.mxir = s4.mxir :=
                                (ct_mxir fuel).1 _ _ _ _ hret
                              split at h
                              · exact absurd h (by simp)
                              · split at h
                                · exact absurd h (by simp)
                                · next s7 hdecl =>
                                    have e7 : s7.mxir = s5.mxir := by
                                      split at hdecl
                                      · split at hdecl
                                        · cases hdecl
                                          rfl
                                        · cases hrep : Sema.report ctx _ r
                                              DiagnosticKind.DuplicateDefinition with
                                          | none => rw [hrep] at hdecl; cases hdecl
                                          | some sr =>
                                            rw [hrep] at hdecl
                                            cases hdecl
                                            have e := report_mxir hrep
                                            exact e
                                      · cases hdecl
                                        rfl
                                    cases h
                                    refine ⟨mxirStep_trans (mxirStep_of_mxir_eq ?_)
                                        (emit_nop_ok s7 r ("fn_decl")).1,
                                      (emit_nop_ok s7 r ("fn_decl")).2⟩
                                    rw [e7, e5, e4, e3, e1]
    -- analyze_const_decl
    · intro ctx r s out h
      unfold Sema.analyze_const_decl at h
      simp only [] at h
      split at h
      · exact absurd h (by simp)
      · split at h
        · exact absurd h (by simp)
        · split at h
          · exact absurd h (by simp)
          · split at h
            · exact absurd h (by simp)
            · next ty s1 hty =>
                have e1 : s1.mxir = s.mxir := by
                  split at hty
                  · cases hce : Sema.comptime_eval_comptime_expr ctx fuel _ s with
                    | none => rw [hce] at hty; cases hty
                    | some p =>
                      rw [hce] at hty
                      obtain ⟨tv, sv⟩ := p
                      cases hty
                      exact (ct_mxir fuel).1 _ _ _ _ hce
                  · cases hty
                    rfl
                split at h
                · exact absurd h (by simp)
                · split at h
                  · exact absurd h (by simp)
                  · next vv s2 hvv =>
                      have e2 : s2.mxir = s1.mxir :=
                        (ct_mxir fuel).1 _ _ _ _ hvv
                      split at h
                      · exact absurd h (by simp)
                      · next s3 hdecl =>
                          have e3 : s3.mxir = s2.mxir := by
                            split at hdecl
                            · cases hdecl
                              rfl
                            · cases hrep : Sema.report ctx _ r
                                  DiagnosticKind.DuplicateDefinition with
                              | none => rw [hrep] at hdecl; cases hdecl
                              | some sr =>
                                rw [hrep] at hdecl
                                cases hdecl
                                exact report_mxir hrep
                          cases h
                          refine ⟨mxirStep_trans (mxirStep_of_mxir_eq ?_)
                              (emit_nop_ok s3 r _).1,
                            (emit_nop_ok s3 r _).2⟩
                          rw [e3, e2, e1]
    -- analyze_var_decl
    · intro ctx r s out h
      unfold Sema.analyze_var_decl at h
      simp only [] at h
      split at h
      · exact absurd h (by simp)
      · split at h
        · exact absurd h (by simp)
        · split at h
          · exact absurd h (by simp)
          · next name_node hnn =>
            split at h
            · exact absurd h (by simp)
            · next ty s1 hty =>
                have e1 : s1.mxir = s.mxir := by
                  split at hty
                  · cases hce : Sema.comptime_eval_comptime_expr ctx fuel _ s with
                    | none => rw [hce] at hty; cases hty
                    | some p =>
                      rw [hce] at hty
                      obtain ⟨tv, sv⟩ := p
                      cases hty
                      exact (ct_mxir fuel).1 _ _ _ _ hce
                  · cases hty
                    rfl
                split at h
                · exact absurd h (by simp)
                · next vref s2 hval =>
                    have hv2 : MxirStep s1 s2 ∧
                        ∀ rr ∈ vref.toList, rr < s2.mxir.length := by
                      split at hval
                      · cases hae : Sema.analyze_expr ctx fuel _ s1 with
                        | none => rw [hae] at hval; cases hval
                        | some p =>
                          rw [hae] at hval
                          obtain ⟨rr, sv⟩ := p
                          cases hval
                          obtain ⟨hstep, hlt⟩ := ihExpr _ _ _ _ hae
                          refine ⟨hstep, ?_⟩
                          intro a ha
                          simp only [Option.toList_some, List.mem_singleton] at ha
                          subst ha
                          exact hlt
                      · cases hval
                        exact ⟨mxirStep_refl _, by simp⟩
                    split at h
                    · next herr =>
                        split at h
                        · exact absurd h (by simp)
                        · next s3 hrep =>
                            cases h
                            refine ⟨mxirStep_trans (mxirStep_trans
                                (mxirStep_of_mxir_eq e1)
                                (mxirStep_trans hv2.1
                                  (mxirStep_of_mxir_eq (report_mxir hrep))))
                                (emit_nop_ok s3 r _).1,
                              (emit_nop_ok s3 r _).2⟩
                    · next env2 hok =>
                        cases h
                        have hemit := emit_ok { s2 with env := env2 } r
                          (MxirNodeData.VarDecl
                            { name := name_node.text, ty := ty, value := vref })
                          (fun _ a ha => by
                            simp only [payloadRefs] at ha
                            exact hv2.2 a ha)
                        exact ⟨mxirStep_trans (mxirStep_of_mxir_eq e1)
                            (mxirStep_trans hv2.1 hemit.1), hemit.2⟩
    -- analyze_block
    · intro ctx r s out h
      unfold Sema.analyze_block at h
      simp only [] at h
      split at h
      · exact absurd h (by simp)
      · split at h
        · exact absurd h (by simp)
        · next stmts s1 hbody =>
            obtain ⟨hstep, hrefs⟩ := ihBody _ _ _ _ hbody
            cases h
            have hemit := emit_ok { s1 with env := ComptimeEnv.pop_scope s1.env }
              r (MxirNodeData.Block stmts)
              (fun _ a ha => by
                simp only [payloadRefs] at ha
                exact hrefs a ha)
            exact ⟨mxirStep_trans hstep hemit.1, hemit.2⟩
    -- analyze_body
    · intro ctx r s out h
      unfold Sema.analyze_body at h
      split at h
      · exact absurd h (by simp)
      · exact ihBodyLoop _ _ _ _ h
    -- analyze_body_loop
    · intro ctx cs s out h
      unfold Sema.analyze_body_loop at h
      split at h
      · cases h
        exact ⟨mxirStep_refl _, by simp⟩
      · split at h
        · exact absurd h (by simp)
        · next r1 s1 hchild =>
            obtain ⟨hstep1, hlt1⟩ := ihNode _ _ _ _ hchild
            split at h
            · exact absurd h (by simp)
            · next rs s2 hrest =>
                obtain ⟨hstep2, hlt2⟩ := ihBodyLoop _ _ _ _ hrest
                cases h
                refine ⟨mxirStep_trans hstep1 hstep2, ?_⟩
                intro rr hrr
                simp only [List.mem_cons] at hrr
                rcases hrr with hrr | hrr
                · subst hrr
                  exact lt_of_lt_of_le hlt1 (mxirStep_len hstep2)
                · exact hlt2 rr hrr
    -- analyze_expr_stmt
    · intro ctx r s out h
      unfold Sema.analyze_expr_stmt at h
      split at h
      · exact absurd h (by simp)
      · split at h
        · exact absurd h (by simp)
        · split at h
          · exact absurd h (by simp)
          · next expr s1 hexpr =>
              obtain ⟨hstep, hlt⟩ := ihExpr _ _ _ _ hexpr
              cases h
              have hemit := emit_ok s1 r (MxirNodeData.ExprStmt expr)
                (fun _ a ha => by
                  simp only [payloadRefs, List.mem_singleton] at ha
                  subst ha
                  exact hlt)
              exact ⟨mxirStep_trans hstep hemit.1, hemit.2⟩
    -- analyze_return_stmt
    · intro ctx r s out h
      unfold Sema.analyze_return_stmt at h
      simp only [] at h
      split at h
      · exact absurd h (by simp)
      · split at h
        · exact absurd h (by simp)
        · next mret s1 hret =>
            have hv : MxirStep s s1 ∧ ∀ rr ∈ mret.toList, rr < s1.mxir.length := by
              split at hret
              · cases hae : Sema.analyze_expr ctx fuel _ s with
                | none => rw [hae] at hret; cases hret
                | some p =>
                  rw [hae] at hret
                  obtain ⟨rr, sv⟩ := p
                  cases hret
                  obtain ⟨hstep, hlt⟩ := ihExpr _ _ _ _ hae
                  refine ⟨hstep, ?_⟩
                  intro a ha
                  simp only [Option.toList_some, List.mem_singleton] at ha
                  subst ha
                  exact hlt
              · cases hret
                exact ⟨mxirStep_refl _, by simp⟩
            cases h
            have hemit := emit_ok s1 r (MxirNodeData.Return mret)
              (fun _ a ha => by
                simp only [payloadRefs] at ha
                exact hv.2 a ha)
            exact ⟨mxirStep_trans hv.1 hemit.1, hemit.2⟩
    -- analyze_expr
    · intro ctx r s out h
      unfold Sema.analyze_expr at h
      split at h
      · exact absurd h (by simp)
      · split at h
        · exact analyze_variable_expr_ok h
        · exact ihCallExpr _ _ _ _ h
        · exact analyze_int_literal_ok h
        · exact analyze_string_literal_ok h
        · cases h
          exact emit_nop_ok _ _ _
    -- analyze_call_expr
    · intro ctx r s out h
      unfold Sema.analyze_call_expr at h
      split at h
      · exact absurd h (by simp)
      · split at h
        · exact absurd h (by simp)
        · split at h
          · exact absurd h (by simp)
          · next cv s1 hcv =>
              have e1 : s1.mxir = s.mxir := (ct_mxir fuel).1 _ _ _ _ hcv
              split at h
              · exact absurd h (by simp)
              · next rref s2 hrfc =>
                  obtain ⟨hstep, _⟩ := ihRfc _ _ _ _ _ _ _ hrfc
                  cases h
                  exact ⟨mxirStep_trans (mxirStep_of_mxir_eq e1)
                      (mxirStep_trans hstep (emit_nop_ok s2 r _).1),
                    (emit_nop_ok s2 r _).2⟩
    -- analyze_resolved_fn_call
    · intro ctx r b ca a s out h
      unfold Sema.analyze_resolved_fn_call at h
      split at h
      · split at h
        · exact absurd h (by simp)
        · next range hrg =>
          simp only [] at h
          split at h
          · split at h
            · exact absurd h (by simp)
            · next s1 hrep =>
                cases h
                refine ⟨mxirStep_trans (mxirStep_of_mxir_eq ?_)
                    (emit_nop_ok s1 r _).1, (emit_nop_ok s1 r _).2⟩
                have e := report_mxir hrep
                exact e
          · split at h
            · exact absurd h (by simp)
            · split at h
              · exact absurd h (by simp)
              · split at h
                · exact absurd h (by simp)
                · split at h
                  · exact absurd h (by simp)
                  · split at h
                    · exact absurd h (by simp)
                    · next name_node hnn2 =>
                      split at h
                      · exact absurd h (by simp)
                      · split at h
                        · exact absurd h (by simp)
                        · next bref s1 hbody =>
                            obtain ⟨hstep, hlt⟩ := ihNode _ _ _ _ hbody
                            have hp : MxirStep s
                                { s with env := ComptimeEnv.push_scope s.env range } :=
                              mxirStep_of_mxir_eq rfl
                            have hstep0 : MxirStep s s1 := mxirStep_trans hp hstep
                            have hemit := emit_ok s1 0
                              (MxirNodeData.FnDecl
                                { name := name_node.text, body := bref })
                              (fun _ aa haa => by
                                simp only [payloadRefs, List.mem_singleton] at haa
                                subst haa
                                exact hlt)
                            cases h
                            exact ⟨mxirStep_trans hstep0 hemit.1, hemit.2⟩
      · split at h
        · exact absurd h (by simp)
        · next s1 hrep =>
            cases h
            refine ⟨mxirStep_trans (mxirStep_of_mxir_eq (report_mxir hrep))
                (emit_nop_ok s1 r _).1, (emit_nop_ok s1 r _).2⟩

theorem mxirInv_set_zero (m : Mxir) (root new_root : MxirNode)
    (hget : m[0]? = some root) (hself : new_root.self_ref = root.self_ref)
    (hinv : MxirInv m) : MxirInv (m.set 0 new_root) := by
  intro i node hget2
  by_cases hi : i = 0
  · subst hi
    have hlen : 0 < m.length := by
      rw [List.getElem?_eq_some_iff] at hget
      exact hget.1
    rw [List.getElem?_set_self hlen] at hget2
    cases hget2
    refine ⟨?_, fun hc => absurd rfl hc⟩
    rw [hself]
    exact (hinv 0 root hget).1
  · rw [List.getElem?_set_ne (fun hne => hi hne.symm)] at hget2
    exact hinv i node hget2

theorem analyze_source_file_mxir_inv (ctx : SemaCtx) (fuel : Nat)
    (out : SemaState)
    (h : Sema.analyze_source_file ctx fuel Sema.initState = some out) :
    MxirInv out.mxir := by
  have hinv0 : MxirInv Sema.initState.mxir := by
    intro i node hget
    simp [Sema.initState] at hget
  unfold Sema.analyze_source_file at h
  simp only [Sema.emit, Sema.initState, List.nil_append, List.length_nil] at h
  split at h
  · cases h
    exact hinv0
  · next sf hsf =>
    split at h
    · exact absurd h (by simp)
    · next stmts s2 hbody =>
        have hb := (analyze_mxir fuel).2.2.2.2.2.1 _ _ _ _ hbody
        split at h
        · exact absurd h (by simp)
        · next stmts2 s3 hentry =>
            have hE : MxirStep s2 s3 ∧ ∀ rr ∈ stmts2, rr < s3.mxir.length := by
              split at hentry
              · cases hrfc : Sema.analyze_resolved_fn_call ctx fuel _ _ [] [] s2 with
                | none => rw [hrfc] at hentry; cases hentry
                | some p =>
                  rw [hrfc] at hentry
                  obtain ⟨rref, s4⟩ := p
                  cases hentry
                  obtain ⟨hst, hlt⟩ :=
                    (analyze_mxir fuel).2.2.2.2.2.2.2.2.2.2.2 _ _ _ _ _ _ _ hrfc
                  refine ⟨hst, ?_⟩
                  intro rr hrr
                  simp only [List.mem_append, List.mem_singleton] at hrr
                  rcases hrr with hrr | hrr
                  · exact lt_of_lt_of_le (hb.2 rr hrr) (mxirStep_len hst)
                  · subst hrr
                    exact hlt
              · cases hrep : Sema.report ctx s2 0
                    DiagnosticKind.MissingEntrypointFunction with
                | none => rw [hrep] at hentry; cases hentry
                | some sr =>
                  rw [hrep] at hentry
                  cases hentry
                  refine ⟨mxirStep_of_mxir_eq (report_mxir hrep), ?_⟩
                  intro rr hrr
                  rw [report_mxir hrep]
                  exact hb.2 rr hrr
            split at h
            · exact absurd h (by simp)
            · next root_node hroot =>
                have h1 := emit_ok Sema.initState 0 (MxirNodeData.SourceFile [])
                  (fun _ r hr => by simp [payloadRefs] at hr)
                have h2 : MxirStep Sema.initState s3 :=
                  mxirStep_trans h1.1 (mxirStep_trans (mxirStep_of_mxir_eq rfl)
                    (mxirStep_trans hb.1 hE.1))
                have hinv3 : MxirInv s3.mxir := h2.2 hinv0
                have hself : (match root_node.data with
                    | MxirNodeData.SourceFile b =>
                      { root_node with
                        data := MxirNodeData.SourceFile (b ++ stmts2) }
                    | _ => root_node).self_ref = root_node.self_ref := by
                  split <;> rfl
                cases h
                exact mxirInv_set_zero s3.mxir root_node _ hroot hself hinv3

/-- C3: in the MXIR vector returned by `Sema::analyze`, for every node
except the preallocated `SourceFile` slot at index 0, every `MxirNodeRef`
in the node's payload is strictly less than the node's own `self_ref`. -/
theorem C3_mxir_reference_monotonicity (ctx : SemaCtx) (fuel : Nat)
    (out : Mxir × List Diagnostic) (h : Sema.analyze ctx fuel = some out) :
    ∀ i node, out.1[i]? = some node → i ≠ 0 →
      ∀ rr ∈ payloadRefs node.data, rr < node.self_ref := by
  have hinv : MxirInv out.1 := by
    unfold Sema.analyze at h
    cases hsf : Sema.analyze_source_file ctx fuel Sema.initState with
    | none => rw [hsf] at h; cases h
    | some sf =>
      rw [hsf] at h
      cases h
      exact analyze_source_file_mxir_inv ctx fuel sf hsf
  intro i node hget hne rr hrr
  obtain ⟨hself, hrefs⟩ := hinv i node hget
  rw [hself]
  exact hrefs hne rr hrr

/-- C3 witness: the `fn main(): 0 { }` program analyzes to a concrete MXIR
vector whose `FnDecl` node at slot 3 references its body block 2 < 3. -/
theorem C3_witness :
    Sema.analyze ⟨("t.mx"), mkMainOnlyAst ⟨⟨0, 0⟩, ⟨0, 1⟩⟩ ⟨⟨1, 0⟩, ⟨1, 1⟩⟩
          ⟨⟨2, 0⟩, ⟨2, 1⟩⟩ ⟨⟨3, 0⟩, ⟨3, 1⟩⟩ ⟨⟨4, 0⟩, ⟨4, 1⟩⟩ ⟨⟨5, 0⟩, ⟨5, 1⟩⟩
          ⟨⟨6, 0⟩, ⟨6, 1⟩⟩ "" "" "" "" ("0") ("0")⟩ 30 =
        some ([⟨0, 0, MxirNodeData.SourceFile [1, 3]⟩,
            ⟨1, 1, MxirNodeData.Nop ("fn_decl")⟩,
            ⟨2, 5, MxirNodeData.Block []⟩,
            ⟨3, 0, MxirNodeData.FnDecl ⟨("main"), 2⟩⟩], []) ∧
      2 < (MxirNode.mk 3 0 (MxirNodeData.FnDecl ⟨("main"), 2⟩)).self_ref :=
  ⟨rfl,
    C3_mxir_reference_monotonicity
      ⟨("t.mx"), mkMainOnlyAst ⟨⟨0, 0⟩, ⟨0, 1⟩⟩ ⟨⟨1, 0⟩, ⟨1, 1⟩⟩
          ⟨⟨2, 0⟩, ⟨2, 1⟩⟩ ⟨⟨3, 0⟩, ⟨3, 1⟩⟩ ⟨⟨4, 0⟩, ⟨4, 1⟩⟩ ⟨⟨5, 0⟩, ⟨5, 1⟩⟩
          ⟨⟨6, 0⟩, ⟨6, 1⟩⟩ "" "" "" "" ("0") ("0")⟩ 30
      ([⟨0, 0, MxirNodeData.SourceFile [1, 3]⟩,
          ⟨1, 1, MxirNodeData.Nop ("fn_decl")⟩,
          ⟨2, 5, MxirNodeData.Block []⟩,
          ⟨3, 0, MxirNodeData.FnDecl ⟨("main"), 2⟩⟩], [])
      rfl 3 (MxirNode.mk 3 0 (MxirNodeData.FnDecl ⟨("main"), 2⟩)) rfl
      (by decide) 2 (by simp [payloadRefs])⟩
